import Mathlib

/-!
Verification development for the drf-spectacular schema-generation core
(`drf_spectacular/openapi.py`, `drf_spectacular/serializers.py`).

The Python source is shallowly embedded below: schema fragments (Python
dicts holding JSON-schema data) become the `JS` inductive, the mutable
`ComponentRegistry` becomes explicit state passing over `Registry`, and
field / serializer / view descriptors become Lean structures.  Numeric
values that the source stores as Python ints / Decimals / parsed decimal
literals are modelled as `Rat` (exact rational semantics of the decimal
literals written by the source; IEEE rounding of `float(...)` is not
modelled).  Helper functions living in `drf_spectacular.plumbing`
(`build_basic_type`, `build_object_type`, `append_meta`, `safe_ref`,
`ComponentRegistry`, `ResolvedComponent`) are not part of the sources at
hand; their definitions are modelled from the spec and marked as such.
-/

namespace DrfSpectacular

/-- HTTP methods, as held uppercase in `AutoSchema.method`. -/
inductive HttpMethod where
  | GET | POST | PUT | PATCH | DELETE
  deriving DecidableEq, Repr

/-- `self.method.lower()` in the source. -/
def HttpMethod.lower : HttpMethod → String
  | .GET => "get"
  | .POST => "post"
  | .PUT => "put"
  | .PATCH => "patch"
  | .DELETE => "delete"

/-- Schema direction: `'request'` or `'response'` in the source. -/
inductive Direction where
  | request | response
  deriving DecidableEq, Repr

/-- The basic types of `OpenApiTypes` used by the embedded code paths. -/
inductive BasicType where
  | str | int | float | decimal | bool | object | uri | uuid | date
  | datetime | time | email | ip4 | ip6 | file | any
  deriving DecidableEq, Repr

/-- Discriminator object (`discriminator` key): `propertyName` plus the
`mapping` from resource-type value to `$ref` string. -/
structure Discriminator where
  propertyName : String
  mapping : List (String × String)
  deriving DecidableEq, Repr

/-- Non-recursive payload of a JSON-schema fragment (one Python dict).
`Option`/`List` emptiness models key absence.  Numeric bounds are exact
rationals. -/
structure JSCore (α : Type) where
  typ : Option String := none
  format : Option String := none
  multipleOf : Option Rat := none
  maximum : Option Rat := none
  minimum : Option Rat := none
  pattern : Option String := none
  maxLength : Option Int := none
  minLength : Option Int := none
  maxItems : Option Int := none
  minItems : Option Int := none
  readOnly : Option Bool := none
  writeOnly : Option Bool := none
  nullable : Option Bool := none
  defaultVal : Option String := none
  description : Option String := none
  ref : Option String := none
  items : Option α := none
  additionalProperties : Option α := none
  properties : List (String × α) := []
  required : List String := []
  oneOf : List α := []
  allOf : List α := []
  anyOf : List α := []
  discriminator : Option Discriminator := none

/-- A JSON-schema fragment: the recursive knot of `JSCore`. -/
inductive JS where
  | mk (core : JSCore JS) : JS

/-- Unfold a fragment to its payload. -/
def JS.core : JS → JSCore JS
  | .mk c => c

/-- The empty fragment (`dict()` with no keys). -/
def JS.empty : JS := .mk {}

/-- Python truthiness of the fragment as a dict (`if not schema`):
falsy exactly when no key is present. -/
def JS.isEmptyDict (j : JS) : Bool :=
  j.core.typ.isNone && j.core.format.isNone && j.core.multipleOf.isNone &&
  j.core.maximum.isNone && j.core.minimum.isNone && j.core.pattern.isNone &&
  j.core.maxLength.isNone && j.core.minLength.isNone &&
  j.core.maxItems.isNone && j.core.minItems.isNone &&
  j.core.readOnly.isNone && j.core.writeOnly.isNone &&
  j.core.nullable.isNone && j.core.defaultVal.isNone &&
  j.core.description.isNone && j.core.ref.isNone && j.core.items.isNone &&
  j.core.additionalProperties.isNone && j.core.properties.isEmpty &&
  j.core.required.isEmpty && j.core.oneOf.isEmpty && j.core.allOf.isEmpty &&
  j.core.anyOf.isEmpty && j.core.discriminator.isNone

/-- Modelled from the spec: `plumbing.build_basic_type` maps a basic type
to its fixed `type`/`format` fragment (spec section 4.1, rule 10); the
`any` case yields the empty dict. -/
def build_basic_type : BasicType → JS
  | .str => .mk { typ := some "string" }
  | .int => .mk { typ := some "integer" }
  | .float => .mk { typ := some "number", format := some "float" }
  | .decimal => .mk { typ := some "number", format := some "double" }
  | .bool => .mk { typ := some "boolean" }
  | .object => .mk { typ := some "object", additionalProperties := some JS.empty }
  | .uri => .mk { typ := some "string", format := some "uri" }
  | .uuid => .mk { typ := some "string", format := some "uuid" }
  | .date => .mk { typ := some "string", format := some "date" }
  | .datetime => .mk { typ := some "string", format := some "date-time" }
  | .time => .mk { typ := some "string", format := some "time" }
  | .email => .mk { typ := some "string", format := some "email" }
  | .ip4 => .mk { typ := some "string", format := some "ipv4" }
  | .ip6 => .mk { typ := some "string", format := some "ipv6" }
  | .file => .mk { typ := some "string", format := some "binary" }
  | .any => JS.empty

/-- Modelled from the spec: `plumbing.build_array_type(schema)` wraps a
fragment in an array schema. -/
def build_array_type (schema : JS) : JS :=
  .mk { typ := some "array", items := some schema }

/-- Field metadata attached after the type fragment is produced
(`_get_serializer_field_meta` output). `defaultVal` abstracts the
`to_representation` of a concrete non-callable default. -/
structure FieldMeta where
  readOnly : Bool := false
  writeOnly : Bool := false
  nullable : Bool := false
  defaultVal : Option String := none
  description : Option String := none
  deriving DecidableEq, Repr

/-- Modelled from the spec: `plumbing.append_meta(schema, meta)` attaches
the shared metadata keys onto the produced fragment (spec section 4.1,
closing paragraph). -/
def append_meta (j : JS) (m : FieldMeta) : JS :=
  .mk { j.core with
    readOnly := if m.readOnly then some true else j.core.readOnly
    writeOnly := if m.writeOnly then some true else j.core.writeOnly
    nullable := if m.nullable then some true else j.core.nullable
    defaultVal := match m.defaultVal with
      | some d => some d
      | none => j.core.defaultVal
    description := match m.description with
      | some d => some d
      | none => j.core.description }

/-- Python truthiness of an optional numeric attribute (`if field.max_value:`):
truthy exactly when present and nonzero. -/
def qTruthy : Option Rat → Bool
  | none => false
  | some q => q != 0

/-- Python `int(x)` truncation toward zero on a rational. -/
def intTrunc (q : Rat) : Int :=
  q.num / (q.den : Int)

/-- Validators attached to a field, as inspected by
`_map_field_validators`. -/
inductive Validator where
  | email
  | url (pattern : String)
  | regex (pattern : String)
  | maxLength (limit : Int)
  | minLength (limit : Int)
  | maxValue (limit : Rat)
  | minValue (limit : Rat)
  | decimalV (decimal_places : Option Nat) (max_digits : Option Nat)
  deriving DecidableEq, Repr

/-- The field kinds needed by the claims.  `decimal` carries the resolved
`coerce_to_string` flag, `decimal_places`, `max_whole_digits` and the
declared `max_value`/`min_value`; `integer`/`float` carry their declared
bounds. `hidden` stands for `serializers.HiddenField`. -/
inductive FieldKind where
  | integer (max_value min_value : Option Rat)
  | float (max_value min_value : Option Rat)
  | decimal (coerce_to_string : Option Bool) (decimal_places max_whole_digits : Option Nat)
      (max_value min_value : Option Rat)
  | char
  | listField (isList : Bool)
  | hidden
  deriving DecidableEq, Repr

/-- One serializer field descriptor: name, visibility flags, declared
requiredness, validators, metadata inputs, and its kind.  `reprNone` is
the value of `field.to_representation(None)` when that call succeeds
(used by the polymorphic discriminator read); `none` models the call
raising. -/
structure FieldInfo where
  name : String
  required : Bool := false
  read_only : Bool := false
  write_only : Bool := false
  allow_null : Bool := false
  defaultRepr : Option String := none
  help_text : Option String := none
  validators : List Validator := []
  reprNone : Option String := none
  kind : FieldKind := .char
  deriving DecidableEq, Repr

/-- `AutoSchema._get_serializer_field_meta`. -/
def get_serializer_field_meta (f : FieldInfo) : FieldMeta :=
  { readOnly := f.read_only
    writeOnly := f.write_only
    nullable := f.allow_null
    defaultVal := f.defaultRepr
    description := f.help_text }

/-- `AutoSchema._map_min_max`: copy truthy declared bounds onto the
fragment. -/
def map_min_max (max_value min_value : Option Rat) (content : JS) : JS :=
  let c1 : JS :=
    if qTruthy max_value then .mk { content.core with maximum := max_value }
    else content
  if qTruthy min_value then .mk { c1.core with minimum := min_value }
  else c1

/-- Value of the digit string `'9' * n` (`int(field.max_whole_digits * '9')`
in the decimal branch). -/
def repNine : Nat → Nat
  | 0 => 0
  | n + 1 => 10 * repNine n + 9

/-- The rational denoted by the decimal literal
`'.' + (p - 1) * '0' + '1'` which the source passes to `float(...)`:
exactly `10 ^ (-p)`.  (The IEEE rounding of the parsed literal is not
modelled; the literal itself denotes this rational.) -/
def decimalStep (p : Nat) : Rat :=
  1 / (10 : Rat) ^ p

/-- Python truthiness of an optional natural attribute
(`if field.decimal_places:`). -/
def natTruthy : Option Nat → Bool
  | none => false
  | some n => n != 0

/-- `AutoSchema._map_serializer_field`, restricted to the field kinds of
`FieldKind`; each included branch mirrors the corresponding
`isinstance` branch of the source, followed by `append_meta`. -/
def map_serializer_field (coerceDefault : Bool) (f : FieldInfo) : JS :=
  let meta := get_serializer_field_meta f
  match f.kind with
  | .hidden =>
      -- HiddenField is skipped by `_map_basic_serializer` before mapping;
      -- mapping it directly falls to the CharField-style default.
      append_meta (build_basic_type .str) meta
  | .char => append_meta (build_basic_type .str) meta
  | .listField _ => append_meta (build_array_type JS.empty) meta
  | .decimal coerce places whole max_value min_value =>
      -- getattr(field, 'coerce_to_string', api_settings.COERCE_DECIMAL_TO_STRING)
      let content :=
        if coerce.getD coerceDefault then
          .mk { (build_basic_type .str).core with format := some "decimal" }
        else build_basic_type .decimal
      let content :=
        if natTruthy places then
          .mk { content.core with
            multipleOf := some (decimalStep ((places.getD 0))) }
        else content
      let content :=
        if natTruthy whole then
          .mk { content.core with
            maximum := some ((repNine (whole.getD 0) : Int) + 1)
            minimum := some (-((repNine (whole.getD 0) : Int) + 1)) }
        else content
      append_meta (map_min_max max_value min_value content) meta
  | .float max_value min_value =>
      append_meta (map_min_max max_value min_value (build_basic_type .float)) meta
  | .integer max_value min_value =>
      let content := map_min_max max_value min_value (build_basic_type .int)
      let content :=
        if intTrunc ((content.core.maximum).getD 0) > 2147483647 ||
           intTrunc ((content.core.minimum).getD 0) > 2147483647 then
          .mk { content.core with format := some "int64" }
        else content
      append_meta content meta

/-- A plain (non-extension) serializer descriptor: declared class name,
optional `Meta.ref_name`, `read_only` flag, the `many=False` annotation
(`get_override(serializer, 'many')`), docstring and ordered fields.
`id` models the Python object identity used by the registry. -/
structure PlainSer where
  id : Nat
  className : String
  refName : Option String := none
  read_only : Bool := false
  manyOverride : Option Bool := none
  doc : Option String := none
  fields : List FieldInfo := []

/-- A dynamically-typed serializer-like value as handled by
`_get_response_for_code` / `_is_list_view`: `None`, a serializer
instance, a `ListSerializer`, a basic type, or a raw schema dict. -/
inductive SerVal where
  | pynone
  | plain (s : PlainSer)
  | listSer (child : PlainSer)
  | basic (t : BasicType)
  | raw (j : JS)

/-- The value returned by `get_response_serializers()`: a serializer, a
`ListSerializer`, a basic type, a dict of status code to serializer-like
value, or something unresolvable (e.g. `None`). -/
inductive RespDecl where
  | ser (s : PlainSer)
  | listSer (child : PlainSer)
  | basic (t : BasicType)
  | codeDict (es : List (Int × SerVal))
  | unresolved

/-- The value returned by `get_request_serializer()` as branched on by
`_get_request_body`. -/
inductive ReqDecl where
  | ser (s : PlainSer)
  | listSer (child : PlainSer)
  | basic (t : BasicType)
  | unresolved

/-- One OpenAPI parameter dict as built by the parameter sources
(`name`, `in`, `required`, `description`, `schema`). -/
structure Param where
  name : String
  location : String
  required : Bool := true
  description : String := ""
  schema : JS := JS.empty

/-- A configured paginator (external collaborator): its declared
operation parameters and its paginated-response wrapper. -/
structure Paginator where
  schemaParams : List Param := []
  wrapResponse : JS → JS := id

/-- A renderer class: `BrowsableAPIRenderer` or a media-type renderer. -/
inductive Renderer where
  | browsable
  | media (mt : String)

/-- View/handler data consumed by the heuristics: optional `action`
identifier, mixin/base-class facts, lookup configuration, and
filter-backend declared parameters (`none` models the view having no
`filter_backends` attribute). -/
structure ViewInfo where
  action : Option String := none
  isListModelMixin : Bool := false
  isGenericAPIView : Bool := false
  lookup_url_kwarg : Option String := none
  lookup_field : String := "pk"
  filterBackends : Option (List (List Param)) := none

/-- The per-operation context of `AutoSchema`: route data, settings and
external collaborator outputs. -/
structure Ctx where
  method : HttpMethod
  pathVars : List String := []
  view : ViewInfo := {}
  splitRequest : Bool := false
  splitPatch : Bool := false
  coerceDecimalToString : Bool := false
  parsers : List String := []
  renderers : List Renderer := []
  paginator : Option Paginator := none
  responseDecl : RespDecl := .unresolved
  requestDecl : ReqDecl := .unresolved
  overrideParams : List Param := []
  regexParam : String → Option (JS × Bool) := fun _ => none
  modelFieldSchema : String → Option JS := fun _ => none

/-- Modelled from the spec: `plumbing.safe_ref` gives a `$ref` fragment
carrying sibling keys its own context by wrapping it in `allOf`. -/
def safe_ref (j : JS) : JS :=
  if j.core.ref.isSome && !(JS.mk { j.core with ref := none }).isEmptyDict then
    JS.mk { allOf := [j] }
  else j

/-- Modelled from the spec: `plumbing.build_object_type` builds an object
schema from properties, required names and a description (empty
`required` and absent description produce no key). -/
def build_object_type (properties : List (String × JS)) (required : List String)
    (description : Option String) : JS :=
  JS.mk { typ := some "object", properties := properties, required := required,
          description := description }

/-- `schema.get('readOnly')` truthiness on a fragment. -/
def jsReadOnly (j : JS) : Bool := j.core.readOnly == some true

/-- `schema.get('writeOnly')` truthiness on a fragment. -/
def jsWriteOnly (j : JS) : Bool := j.core.writeOnly == some true

/-- Apply one validator to a fragment (`_map_field_validators` body, one
iteration).  `URLValidator` is a `RegexValidator` subclass, so it sets
both `format` and `pattern`; the `elif` chain mirrors the source. -/
def applyValidator (isListField : Bool) (schema : JS) : Validator → JS
  | .email => JS.mk { schema.core with format := some "email" }
  | .url p => JS.mk { schema.core with format := some "uri", pattern := some p }
  | .regex p => JS.mk { schema.core with pattern := some p }
  | .maxLength l =>
      if isListField then JS.mk { schema.core with maxItems := some l }
      else JS.mk { schema.core with maxLength := some l }
  | .minLength l =>
      if isListField then JS.mk { schema.core with minItems := some l }
      else JS.mk { schema.core with minLength := some l }
  | .maxValue l => JS.mk { schema.core with maximum := some l }
  | .minValue l => JS.mk { schema.core with minimum := some l }
  | .decimalV places digits =>
      let s1 :=
        if natTruthy places then
          JS.mk { schema.core with multipleOf := some (decimalStep (places.getD 0)) }
        else schema
      if natTruthy digits then
        let d := match places with
          | some p => if p > 0 then digits.getD 0 - p else digits.getD 0
          | none => digits.getD 0
        JS.mk { s1.core with
          maximum := some ((repNine d : Int) + 1)
          minimum := some (-((repNine d : Int) + 1)) }
      else s1

/-- Whether a field is a `ListField` (switches length validators to
`maxItems`/`minItems`). -/
def FieldInfo.isListField (f : FieldInfo) : Bool :=
  match f.kind with
  | .listField _ => true
  | _ => false

/-- `AutoSchema._map_field_validators`. -/
def map_field_validators (f : FieldInfo) (schema : JS) : JS :=
  f.validators.foldl (applyValidator f.isListField) schema

/-- Loop body of `_map_basic_serializer`: skip `HiddenField`s, add the
field name to `required` when it is declared required or its fragment is
`readOnly`, merge validators, append the property. -/
def map_basic_step (cd : Bool) (acc : List String × List (String × JS))
    (f : FieldInfo) : List String × List (String × JS) :=
  if f.kind = .hidden then acc
  else
    let schema := map_serializer_field cd f
    let req :=
      if f.required || jsReadOnly schema then acc.1 ++ [f.name] else acc.1
    (req, acc.2 ++ [(f.name, safe_ref (map_field_validators f schema))])

/-- `COMPONENT_SPLIT_PATCH and self.method == 'PATCH' and direction ==
'request'`: the condition that empties `required`. -/
def patchSuppressed (ctx : Ctx) (dir : Direction) : Bool :=
  ctx.splitPatch && ctx.method == .PATCH && dir == .request

/-- `AutoSchema._map_basic_serializer`: iterate fields in order, skip
`HiddenField`s, mark a field required when it is declared required or
its fragment is `readOnly`, merge validators, and suppress `required`
for a PATCH request under `COMPONENT_SPLIT_PATCH`. -/
def map_basic_serializer (ctx : Ctx) (s : PlainSer) (dir : Direction) : JS :=
  let racc := s.fields.foldl (map_basic_step ctx.coerceDecimalToString) ([], [])
  let required := if patchSuppressed ctx dir then [] else racc.1
  build_object_type racc.2 required s.doc

/-- `AutoSchema._postprocess_serializer_schema`: under
`COMPONENT_SPLIT_REQUEST`, strip `readOnly` properties from request
schemas and `writeOnly` properties from response schemas, removing their
names from `required` too. -/
def postprocess_serializer_schema (ctx : Ctx) (schema : JS) (dir : Direction) : JS :=
  if !ctx.splitRequest then schema
  else
    let dropped := fun (p : String × JS) =>
      (dir = .request && jsReadOnly p.2) || (dir = .response && jsWriteOnly p.2)
    let props := schema.core.properties
    let removed := (props.filter dropped).map Prod.fst
    JS.mk { schema.core with
      properties := props.filter (fun p => !dropped p)
      required := schema.core.required.filter (fun n => !(removed.contains n)) }

/-- `AutoSchema._map_serializer` for a plain serializer (no serializer
extension applies): basic mapping plus split post-processing. -/
def map_serializer (ctx : Ctx) (s : PlainSer) (dir : Direction) : JS :=
  postprocess_serializer_schema ctx (map_basic_serializer ctx s dir) dir

/-- Python `name.endswith(suffix)` over the character list (the builtin
`String.endsWith` works on byte positions and is not definitionally
reducible). -/
def pyEndsWith (s t : String) : Bool := t.data.isSuffixOf s.data

/-- `AutoSchema._get_serializer_name`: `ref_name` override, else class
name; strip a trailing `Serializer`; `Patched` qualifier for
split-patch PATCH requests on non-read-only serializers; `Request`
suffix under split-request. -/
def get_serializer_name (ctx : Ctx) (s : PlainSer) (dir : Direction) : String :=
  let name := s.refName.getD s.className
  let name := if pyEndsWith name "Serializer" then name.dropRight 10 else name
  let name :=
    if ctx.method = .PATCH && ctx.splitPatch && !s.read_only && dir = .request then
      "Patched" ++ name
    else name
  if dir = .request && ctx.splitRequest then name ++ "Request" else name

/-- Component kinds (`ResolvedComponent.SCHEMA` / `SECURITY_SCHEMA`). -/
inductive CompType where
  | schema | securityScheme
  deriving DecidableEq, Repr

/-- Modelled from the spec: `plumbing.ResolvedComponent` — name, kind,
identity (object reference) and schema; `⟨none, none, none, none⟩` is
the falsy sentinel returned for discarded components. -/
structure RComp where
  name : Option String := none
  ctype : Option CompType := none
  objId : Option Nat := none
  schema : Option JS := none

/-- The sentinel `ResolvedComponent(None, None)`. -/
def RComp.sentinel : RComp := {}

/-- Modelled from the spec: the sentinel is falsy (`if not component`),
a materialized component is truthy. -/
def RComp.truthy (c : RComp) : Bool := c.name.isSome

/-- Modelled from the spec: a component's `$ref` fragment. -/
def RComp.refJS (c : RComp) : JS :=
  JS.mk { ref := some ("#/components/schemas/" ++ c.name.getD "None") }

/-- The registry is run-scoped ordered storage of resolved components.
Modelled from the spec (`plumbing.ComponentRegistry` is not among the
sources): identity-keyed, idempotent registration, name-collision
renaming. -/
abbrev Registry := List RComp

/-- Same registry identity: same object reference and component kind. -/
def sameId (a b : RComp) : Bool := a.objId == b.objId && a.ctype == b.ctype

/-- Modelled from the spec: `component in registry` — lookup is by
identity, regardless of name. -/
def regContains (reg : Registry) (c : RComp) : Bool :=
  reg.any (fun e => sameId e c)

/-- Modelled from the spec: `registry[component]` returns the stored
component for the identity. -/
def regLookup (reg : Registry) (c : RComp) : RComp :=
  (reg.find? (fun e => sameId e c)).getD RComp.sentinel

/-- Whether a name is already bound to a different identity. -/
def regNameClash (reg : Registry) (c : RComp) : Bool :=
  reg.any (fun e => e.name == c.name && !sameId e c)

/-- Smallest sequential suffix ≥ 2 making `n ++ suffix` free, with fuel. -/
def freshNameAux (reg : Registry) (n : String) : Nat → Nat → String
  | 0, k => n ++ toString k
  | fuel + 1, k =>
      if reg.any (fun e => e.name == some (n ++ toString k)) then
        freshNameAux reg n fuel (k + 1)
      else n ++ toString k

/-- Modelled from the spec: on a name collision between different
identities, rename by appending a sequential discriminating suffix. -/
def regRegister (reg : Registry) (c : RComp) : RComp × Registry :=
  let c' :=
    if regNameClash reg c then
      { c with name := c.name.map (fun n => freshNameAux reg n (reg.length + 2) 2) }
    else c
  (c', reg ++ [c'])

/-- Modelled from the spec: store the computed schema on the registered
component (`component.schema = ...` mutates the registered object). -/
def regSetSchema (reg : Registry) (c : RComp) (js : JS) : Registry :=
  reg.map (fun e => if sameId e c then { e with schema := some js } else e)

/-- Modelled from the spec: `del registry[component]` evicts the
identity. -/
def regErase (reg : Registry) (c : RComp) : Registry :=
  reg.filter (fun e => !sameId e c)

/-- Whether a mapped serializer schema has neither composition keywords
nor properties — the negation of the `keep_component` condition of
`resolve_serializer`. -/
def isEmptyObjSchema (j : JS) : Bool :=
  j.core.oneOf.isEmpty && j.core.allOf.isEmpty && j.core.anyOf.isEmpty &&
  j.core.properties.isEmpty

/-- `AutoSchema.resolve_serializer` for a plain serializer: build the
identity-keyed component, return the stored one when the identity is
already registered, else register, compute the schema, and keep the
component only when it has composition keywords or properties —
otherwise evict it and return the sentinel. -/
def resolve_serializer (ctx : Ctx) (s : PlainSer) (dir : Direction)
    (reg : Registry) : RComp × Registry :=
  let component : RComp :=
    { name := some (get_serializer_name ctx s dir), ctype := some .schema,
      objId := some s.id }
  if regContains reg component then (regLookup reg component, reg)
  else
    let rr := regRegister reg component
    let schema := map_serializer ctx s dir
    let component := { rr.1 with schema := some schema }
    let reg := regSetSchema rr.2 component schema
    let keep :=
      !schema.core.oneOf.isEmpty || !schema.core.allOf.isEmpty ||
      !schema.core.anyOf.isEmpty || !schema.core.properties.isEmpty
    if keep then (component, reg)
    else (RComp.sentinel, regErase reg component)

/-- `lookup_url_kwarg or lookup_field` (Python `or`: empty string and
`None` both fall through). -/
def pyOrStr (a : Option String) (b : String) : String :=
  match a with
  | some s => if s = "" then b else s
  | none => b

/-- The action/method/mixin/lookup cascade of `_is_list_view` reached
when the (possibly dict-extracted) serializer value decides nothing. -/
def is_list_view_core (view : ViewInfo) (method : HttpMethod)
    (pathVars : List String) : Bool :=
  match view.action with
  | some a => a == "list"
  | none =>
    if method.lower != "get" then false
    else if view.isListModelMixin then true
    else if view.isGenericAPIView then
      -- lookup variable in path is a strong indicator for retrieve
      if pathVars.contains (pyOrStr view.lookup_url_kwarg view.lookup_field) then
        false
      else false
    else false

/-- `_is_list_view` on a serializer-like value (after any dict
extraction): `ListSerializer` is a list, a basic type is not, and raw
schema dicts and `None` fall through to the view cascade (a raw dict's
string-keyed extraction yields values matching no serializer check). -/
def is_list_view_val (view : ViewInfo) (method : HttpMethod)
    (pathVars : List String) : SerVal → Bool
  | .listSer _ => true
  | .basic _ => false
  | .plain _ => is_list_view_core view method pathVars
  | .pynone => is_list_view_core view method pathVars
  | .raw _ => is_list_view_core view method pathVars

/-- Python dict update `d[k] = v`: replace in place when the key exists,
else append (insertion order preserved). -/
def pyUpd {κ α : Type} [BEq κ] (d : List (κ × α)) (k : κ) (v : α) : List (κ × α) :=
  if d.any (fun kv => kv.1 == k) then
    d.map (fun kv => if kv.1 == k then (k, v) else kv)
  else d ++ [(k, v)]

/-- Build the `{str(code): s}` dict (later duplicates win), preserving
insertion order. -/
def pyStrDict (es : List (Int × SerVal)) : List (String × SerVal) :=
  es.foldl (fun d e => pyUpd d (toString e.1) e.2) []

/-- `serializer[min(serializer)]`: the value at the minimal string key. -/
def pyDictMinVal (d : List (String × SerVal)) : Option SerVal :=
  match d with
  | [] => none
  | kv :: rest =>
      let mk := rest.foldl (fun m e => if e.1 < m then e.1 else m) kv.1
      (d.find? (fun e => e.1 == mk)).map Prod.snd

/-- `AutoSchema._is_list_view` on the response declaration (the
`serializer is None` entry point): a non-empty dict override is replaced
by the value at its lowest string-ordered status code first. -/
def is_list_view_decl (view : ViewInfo) (method : HttpMethod)
    (pathVars : List String) : RespDecl → Bool
  | .codeDict es =>
      match pyDictMinVal (pyStrDict es) with
      | some v => is_list_view_val view method pathVars v
      | none => is_list_view_core view method pathVars
  | .ser s => is_list_view_val view method pathVars (.plain s)
  | .listSer c => is_list_view_val view method pathVars (.listSer c)
  | .basic t => is_list_view_val view method pathVars (.basic t)
  | .unresolved => is_list_view_core view method pathVars

/-- `self._is_list_view()` with the implicit response declaration. -/
def ctx_is_list_view (ctx : Ctx) : Bool :=
  is_list_view_decl ctx.view ctx.method ctx.pathVars ctx.responseDecl

/-- `AutoSchema.map_parsers`: declared parser media types. -/
def map_parsers (ctx : Ctx) : List String := ctx.parsers

/-- `AutoSchema.map_renderers`: renderer media types with
`BrowsableAPIRenderer` dropped. -/
def map_renderers (ctx : Ctx) : List String :=
  ctx.renderers.filterMap (fun r =>
    match r with
    | .browsable => none
    | .media mt => some mt)

/-- An OpenAPI request body object: per-media-type schemas, plus the
`required` key (present only when true). -/
structure RequestBody where
  content : List (String × JS)
  required : Bool := false

/-- `AutoSchema._get_request_body`: only unsafe methods have a body; a
discarded (sentinel) component or an empty basic schema yields no body;
the body is required when some required property is not read-only. -/
def get_request_body (ctx : Ctx) (reg : Registry) : Option RequestBody × Registry :=
  if !(ctx.method == .PUT || ctx.method == .PATCH || ctx.method == .POST) then
    (none, reg)
  else
    match ctx.requestDecl with
    | .listSer child =>
        let cr := resolve_serializer ctx child .request reg
        let schema := build_array_type cr.1.refJS
        (some { content := (map_parsers ctx).map (fun mt => (mt, schema))
                required := true }, cr.2)
    | .ser s =>
        let cr := resolve_serializer ctx s .request reg
        if !cr.1.truthy then (none, cr.2)
        else
          let compSchema := cr.1.schema.getD JS.empty
          let readonly_props :=
            (compSchema.core.properties.filter (fun p => jsReadOnly p.2)).map Prod.fst
          let required_props := compSchema.core.required
          (some { content := (map_parsers ctx).map (fun mt => (mt, cr.1.refJS))
                  required := required_props.any (fun r => !readonly_props.contains r) },
           cr.2)
    | .basic t =>
        let schema := build_basic_type t
        if schema.isEmptyDict then (none, reg)
        else
          (some { content := (map_parsers ctx).map (fun mt => (mt, schema)) }, reg)
    | .unresolved =>
        let schema := JS.mk { typ := some "object", additionalProperties := some JS.empty,
                              description := some "Unspecified request body" }
        (some { content := (map_parsers ctx).map (fun mt => (mt, schema)) }, reg)

/-- One entry of the `responses` map: either a bare description (no
body) or per-media-type content plus the mandatory description. -/
structure RespEntry where
  content : Option (List (String × JS)) := none
  description : String := ""

/-- The `{'description': 'No response body'}` entry. -/
def noBodyEntry : RespEntry := { description := "No response body" }

/-- `not get_override(serializer, 'many') is False`: array wrapping is
suppressed only by an explicit `many=False` annotation on a serializer. -/
def manyWrapAllowed : SerVal → Bool
  | .plain s => !(s.manyOverride == some false)
  | _ => true

/-- Shared tail of `_get_response_for_code`: array-wrap (and
pagination-wrap) when the list heuristic fires for this body, then
attach per-renderer content. -/
def response_entry (ctx : Ctx) (v : SerVal) (schema : JS) : RespEntry :=
  let schema :=
    if is_list_view_val ctx.view ctx.method ctx.pathVars v && manyWrapAllowed v then
      let schema := build_array_type schema
      match ctx.paginator with
      | some p => p.wrapResponse schema
      | none => schema
    else schema
  { content := some ((map_renderers ctx).map (fun mt => (mt, schema)))
    description := "" }

/-- `AutoSchema._get_response_for_code` on one serializer-like value. -/
def get_response_for_code (ctx : Ctx) (v : SerVal) (reg : Registry) :
    RespEntry × Registry :=
  match v with
  | .pynone => (noBodyEntry, reg)
  | .listSer child =>
      let cr := resolve_serializer ctx child .response reg
      (response_entry ctx v cr.1.refJS, cr.2)
  | .plain s =>
      let cr := resolve_serializer ctx s .response reg
      if !cr.1.truthy then (noBodyEntry, cr.2)
      else (response_entry ctx v cr.1.refJS, cr.2)
  | .basic t => (response_entry ctx v (build_basic_type t), reg)
  | .raw j => (response_entry ctx v j, reg)

/-- `AutoSchema._get_response_bodies`: single serializer/basic type maps
to status 200 (DELETE maps to 204 with no body); a dict override maps to
one entry per stringified status code; anything else falls back to a
free-form object under 200. -/
def get_response_bodies (ctx : Ctx) (reg : Registry) :
    List (String × RespEntry) × Registry :=
  match ctx.responseDecl with
  | .ser s =>
      if ctx.method == .DELETE then ([("204", noBodyEntry)], reg)
      else
        let er := get_response_for_code ctx (.plain s) reg
        ([("200", er.1)], er.2)
  | .listSer child =>
      if ctx.method == .DELETE then ([("204", noBodyEntry)], reg)
      else
        let er := get_response_for_code ctx (.listSer child) reg
        ([("200", er.1)], er.2)
  | .basic t =>
      if ctx.method == .DELETE then ([("204", noBodyEntry)], reg)
      else
        let er := get_response_for_code ctx (.basic t) reg
        ([("200", er.1)], er.2)
  | .codeDict es =>
      es.foldl
        (fun acc e =>
          let er := get_response_for_code ctx e.2 acc.2
          (pyUpd acc.1 (toString e.1) er.1, er.2))
        ([], reg)
  | .unresolved =>
      let schema := JS.mk { (build_basic_type .object).core with
                            description := some "Unspecified response body" }
      let er := get_response_for_code ctx (.raw schema) reg
      ([("200", er.1)], er.2)

/-- The `(name, in)` key used to deduplicate parameters. -/
def paramKey (p : Param) : String × String := (p.name, p.location)

/-- `dict_helper` in `_get_parameters`. -/
def dict_helper (ps : List Param) : List ((String × String) × Param) :=
  ps.foldl (fun d p => pyUpd d (paramKey p) p) []

/-- Python `{**d1, **d2}`: insert all of `d2` into `d1`, later wins. -/
def pyMergeD {κ α : Type} [BEq κ] (d1 d2 : List (κ × α)) : List (κ × α) :=
  d2.foldl (fun acc kv => pyUpd acc kv.1 kv.2) d1

/-- `AutoSchema._allows_filters`. -/
def allows_filters (ctx : Ctx) : Bool :=
  match ctx.view.filterBackends with
  | none => false
  | some _ =>
    match ctx.view.action with
    | some a =>
        ["list", "retrieve", "update", "partial_update", "destroy"].contains a
    | none => ["get", "put", "patch", "delete"].contains ctx.method.lower

/-- `AutoSchema._get_filter_parameters`. -/
def get_filter_parameters (ctx : Ctx) : List Param :=
  if !allows_filters ctx then []
  else (ctx.view.filterBackends.getD []).flatten

/-- `AutoSchema._get_pagination_parameters`. -/
def get_pagination_parameters (ctx : Ctx) : List Param :=
  if !ctx_is_list_view ctx then []
  else
    match ctx.paginator with
    | none => []
    | some p => p.schemaParams

/-- `AutoSchema._resolve_path_parameters`: regex-resolved type first,
else related-model field introspection (with `readOnly`/`writeOnly`/
`nullable`/`default` stripped), else opaque string with a warning. -/
def resolve_path_parameters (ctx : Ctx) (vars : List String) : List Param :=
  vars.map (fun v =>
    match ctx.regexParam v with
    | some sr => { name := v, location := "path", required := sr.2, schema := sr.1 }
    | none =>
      match ctx.modelFieldSchema v with
      | some js =>
          let js := JS.mk { js.core with
            readOnly := none
            writeOnly := none
            nullable := none
            defaultVal := none }
          { name := v, location := "path", required := true, schema := js }
      | none =>
          { name := v, location := "path", required := true,
            schema := build_basic_type .str })

/-- Stable insertion into a name-sorted parameter list. -/
def insertByName (p : Param) : List Param → List Param
  | [] => [p]
  | q :: qs => if p.name ≤ q.name then p :: q :: qs else q :: insertByName p qs

/-- `sorted(parameters.values(), key=lambda p: p['name'])`. -/
def sortByName (l : List Param) : List Param :=
  l.foldr insertByName []

/-- The path variables still to be resolved: those of the route's path
template not already overridden as `(name, 'path')` parameters. -/
def path_variables_used (ctx : Ctx) : List String :=
  ctx.pathVars.filter (fun v =>
    !(dict_helper ctx.overrideParams).any (fun kv => kv.1 == (v, "path")))

/-- `AutoSchema._get_parameters`: merge path variables, filter
parameters and pagination parameters into one `(name, in)`-keyed dict
(later source wins on collision), apply the explicit overrides on top,
and sort the values by parameter name. -/
def get_parameters (ctx : Ctx) : List Param :=
  let parameters :=
    pyMergeD
      (pyMergeD (dict_helper (resolve_path_parameters ctx (path_variables_used ctx)))
        (dict_helper (get_filter_parameters ctx)))
      (dict_helper (get_pagination_parameters ctx))
  let parameters :=
    (dict_helper ctx.overrideParams).foldl
      (fun acc kv => pyUpd acc kv.1 kv.2) parameters
  sortByName (parameters.map Prod.snd)

/-- The value that Python's repeated `d[k] = v` writes leave at key `k`
after inserting the entries of `es` in order: the last write wins. -/
def lastEntry (es : List ((String × String) × Param)) (k : String × String) :
    Option Param :=
  es.foldl (fun acc kv => if kv.1 == k then some kv.2 else acc) none

/-- The last parameter of `ps` with dict key `k` (insertion into a dict
keyed by `paramKey` keeps the last one). -/
def lastAt (ps : List Param) (k : String × String) : Option Param :=
  ps.foldl (fun acc p => if paramKey p == k then some p else acc) none

/-- Association-list lookup (first entry with the key). -/
def dictLookup (d : List ((String × String) × Param)) (k : String × String) :
    Option Param :=
  (d.find? (fun kv => kv.1 == k)).map Prod.snd

/-- First-of-two choice on optional parameters (used to express lookup
precedence chains). -/
def oElse (a b : Option Param) : Option Param :=
  match a with
  | some x => some x
  | none => b

/-- A dynamically-typed argument of `resolve_serializer`: the Python
call sites pass either a serializer or a direction string. -/
inductive PyArg where
  | dirArg (d : Direction)
  | serArg (s : PlainSer)

/-- `AutoSchema.resolve_serializer` as called dynamically: the method
body first runs `assert is_serializer(serializer)` on its first
argument, so a direction string in the serializer slot aborts
(`none` models the `AssertionError`).  The only dynamically-typed call
site in the sources is `PolymorphicProxySerializerExtension`. -/
def resolve_serializer_dyn (ctx : Ctx) (a1 a2 : PyArg) (reg : Registry) :
    Option (RComp × Registry) :=
  match a1, a2 with
  | .serArg s, .dirArg d => some (resolve_serializer ctx s d reg)
  | .dirArg _, _ => none
  | .serArg _, .serArg _ => none

/-- Loop body of `PolymorphicProxySerializerExtension.map_serializer`:
for each sub-serializer, call `auto_schema.resolve_serializer(method,
sub_serializer)` — with the direction in the serializer slot, exactly as
written at `serializers.py:32` — then read the discriminator field's
representative value, falling back to the resolved component name. -/
def poly_loop (ctx : Ctx) (resource_type_field_name : String) (method : Direction) :
    List PlainSer → List (String × JS) → Registry →
    Option (List (String × JS) × Registry)
  | [], acc, reg => some (acc, reg)
  | sub :: rest, acc, reg =>
      match resolve_serializer_dyn ctx (.dirArg method) (.serArg sub) reg with
      | none => none
      | some cr =>
          let resource_type :=
            match (sub.fields.find? (fun f => f.name == resource_type_field_name)).bind
                FieldInfo.reprNone with
            | some v => v
            | none => cr.1.name.getD "None"
          poly_loop ctx resource_type_field_name method rest
            (acc ++ [(resource_type, cr.1.refJS)]) cr.2

/-- `PolymorphicProxySerializerExtension.map_serializer`: resolve every
sub-serializer, then build the `oneOf` list and the discriminator
mapping from resource-type value to `$ref`.  The `method` (direction)
argument is what the extension forwards into the serializer slot of
`resolve_serializer`. -/
def poly_map_serializer (ctx : Ctx) (resource_type_field_name : String)
    (subs : List PlainSer) (method : Direction) (reg : Registry) :
    Option (JS × Registry) :=
  match poly_loop ctx resource_type_field_name method subs [] reg with
  | none => none
  | some ar =>
      some (JS.mk
        { oneOf := ar.1.map Prod.snd
          discriminator := some
            { propertyName := resource_type_field_name
              mapping := ar.1.map (fun p => (p.1, p.2.core.ref.getD "")) } },
        ar.2)

/-- The required-marking predicate of `_map_basic_serializer`:
`field.required or schema.get('readOnly')`. -/
def reqPred (cd : Bool) (f : FieldInfo) : Bool :=
  f.required || jsReadOnly (map_serializer_field cd f)

/-! ## Concrete example inputs used by witnesses and counterexamples -/

/-- A list-mixin generic view with lookup field `id` and no action. -/
def viewListMixin : ViewInfo :=
  { action := none, isListModelMixin := true, isGenericAPIView := true,
    lookup_field := "id" }

/-- A minimal plain serializer instance. -/
def serX : PlainSer := { id := 1, className := "XSerializer" }

/-- A context for a plain POST operation. -/
def ctxPost : Ctx := { method := .POST }

/-- A serializer with one read-only and one required read-write field. -/
def serRW : PlainSer :=
  { id := 2, className := "RWSerializer",
    fields :=
      [ { name := "ro", read_only := true, kind := .integer none none },
        { name := "rw", required := true } ] }

/-- A serializer with no fields at all. -/
def serEmpty : PlainSer := { id := 7, className := "EmptySerializer" }

/-- A POST context whose request body declaration is the empty
serializer. -/
def ctxEmptyPost : Ctx :=
  { method := .POST, requestDecl := .ser serEmpty,
    parsers := ["application/json"] }

/-- A serializer named `ASerializer` with one required field. -/
def serA : PlainSer :=
  { id := 11, className := "ASerializer",
    fields := [{ name := "a", required := true }] }

/-- A serializer named `BSerializer` with one required field. -/
def serB : PlainSer :=
  { id := 12, className := "BSerializer",
    fields := [{ name := "b", required := true }] }

/-- A DELETE operation whose response declaration is a real serializer
with properties. -/
def ctxDeleteSer : Ctx :=
  { method := .DELETE, responseDecl := .ser serA,
    renderers := [.media "application/json"] }

/-- A POST operation with the two-status-code response override
`{200: serA, 404: serB}`. -/
def ctxPostAB : Ctx :=
  { method := .POST,
    responseDecl := .codeDict [(200, .plain serA), (404, .plain serB)],
    renderers := [.media "application/json"] }

/-- A query parameter named `page` declared by a filter backend. -/
def pageFilterParam : Param :=
  { name := "page", location := "query", description := "from-filter" }

/-- A query parameter named `page` declared by a paginator. -/
def pagePagParam : Param :=
  { name := "page", location := "query", description := "from-pagination" }

/-- A filterable GET list route whose filter backend and paginator both
declare a query parameter named `page` (with different payloads). -/
def ctxParamClash : Ctx :=
  { method := .GET
    responseDecl := .listSer serX
    view := { filterBackends := some [[pageFilterParam]] }
    paginator := some { schemaParams := [pagePagParam] } }

/-! ## Helper lemmas -/

/-- Unfolding `JS.core` over `JS.mk`. -/
@[simp] theorem JS.core_mk (c : JSCore JS) : (JS.mk c).core = c := rfl

/-- The digit string `'9' * n` denotes `10 ^ n - 1`; adding one gives
`10 ^ n`. -/
theorem repNine_add_one (n : Nat) : repNine n + 1 = 10 ^ n := by
  induction n with
  | zero => simp [repNine]
  | succ k ih =>
      have h : repNine (k + 1) + 1 = 10 * (repNine k + 1) := by
        simp [repNine]; omega
      rw [h, ih, pow_succ]
      ring

/-- Characterization of the numeric keys produced by the `DecimalField`
branch of `_map_serializer_field`. -/
theorem map_decimal_core (cd : Bool) (nm : String) (req ro wo an : Bool)
    (dr ht rn : Option String) (vs : List Validator) (c : Option Bool)
    (places whole : Option Nat) (maxv minv : Option Rat) :
    let j := map_serializer_field cd
      { name := nm, required := req, read_only := ro, write_only := wo,
        allow_null := an, defaultRepr := dr, help_text := ht, validators := vs,
        reprNone := rn, kind := .decimal c places whole maxv minv }
    j.core.multipleOf
        = (if natTruthy places then some (decimalStep (places.getD 0)) else none)
      ∧ j.core.maximum
        = (if qTruthy maxv then maxv
           else if natTruthy whole then some ((repNine (whole.getD 0) : Int) + 1)
           else none)
      ∧ j.core.minimum
        = (if qTruthy minv then minv
           else if natTruthy whole then some (-((repNine (whole.getD 0) : Int) + 1))
           else none) := by
  by_cases hc : (c.getD cd) = true <;>
    by_cases hp : natTruthy places = true <;>
      by_cases hw : natTruthy whole = true <;>
        by_cases hx : qTruthy maxv = true <;>
          by_cases hn : qTruthy minv = true <;>
            simp [map_serializer_field, build_basic_type, map_min_max, append_meta,
              get_serializer_field_meta, hc, hp, hw, hx, hn]

/-- Characterization of the keys produced by the `IntegerField` branch
of `_map_serializer_field`. -/
theorem map_integer_core (cd : Bool) (nm : String) (req ro wo an : Bool)
    (dr ht rn : Option String) (vs : List Validator) (maxv minv : Option Rat) :
    let j := map_serializer_field cd
      { name := nm, required := req, read_only := ro, write_only := wo,
        allow_null := an, defaultRepr := dr, help_text := ht, validators := vs,
        reprNone := rn, kind := .integer maxv minv }
    j.core.maximum = (if qTruthy maxv then maxv else none)
      ∧ j.core.minimum = (if qTruthy minv then minv else none)
      ∧ j.core.format
        = (if intTrunc ((if qTruthy maxv then maxv else none).getD 0) > 2147483647
              ∨ intTrunc ((if qTruthy minv then minv else none).getD 0) > 2147483647
           then some "int64" else none) := by
  by_cases hx : qTruthy maxv = true <;>
    by_cases hn : qTruthy minv = true <;>
      simp [map_serializer_field, build_basic_type, map_min_max, append_meta,
        get_serializer_field_meta, hx, hn] <;>
      split <;> simp_all

/-- Truncation of an integer-valued rational is the integer itself. -/
theorem intTrunc_intCast (z : Int) : intTrunc (z : Rat) = z := by
  simp [intTrunc]

/-- Truncation of zero. -/
theorem intTrunc_zero : intTrunc 0 = 0 := by
  simp [intTrunc]

/-! ## Claim C3 -/

/-- Claim C3 counterexample.  The claim says a decimal field with
`decimal_places = p` gets `multipleOf = 10 ^ (-p)` and, with whole-digit
count `w` known, `maximum = 10 ^ w - 1` and `minimum = -(10 ^ w - 1)`.
The code computes `int(w * '9') + 1 = 10 ^ w`: for `p = 2`, `w = 2` the
fragment's maximum is `100`, not `99`; and for `decimal_places = 0`
(falsy) no `multipleOf` key is produced at all. -/
theorem decimal_bounds_counterexample :
    (map_serializer_field true
      { name := "price", kind := .decimal none (some 2) (some 2) none none }).core.maximum
        = some 100
    ∧ ¬ ((100 : Rat) = 10 ^ (2 : Nat) - 1)
    ∧ (map_serializer_field true
      { name := "price0", kind := .decimal none (some 0) (some 2) none none }).core.multipleOf
        = none := by
  refine ⟨?_, by norm_num, ?_⟩ <;>
    norm_num [map_serializer_field, build_basic_type, map_min_max, append_meta,
      get_serializer_field_meta, natTruthy, qTruthy, repNine, decimalStep]

/-- Claim C3 (amended): for every decimal field with truthy
`decimal_places = p`, the fragment's `multipleOf` is exactly `10 ^ (-p)`
(when `decimal_places` is 0 no `multipleOf` key is emitted); when the
whole-digit count `w` is known (truthy) and no truthy declared
`max_value`/`min_value` overrides it, the fragment's `maximum` is
`10 ^ w` and its `minimum` is `-(10 ^ w)`. -/
theorem decimal_fragment_amended (cd : Bool) (f : FieldInfo) (c : Option Bool)
    (places whole : Option Nat) (maxv minv : Option Rat) (p : Nat)
    (hk : f.kind = .decimal c places whole maxv minv)
    (hp : places = some p) (hp0 : 0 < p) :
    (map_serializer_field cd f).core.multipleOf = some (1 / (10 : Rat) ^ p)
    ∧ (∀ w, whole = some w → 0 < w → qTruthy maxv = false →
        (map_serializer_field cd f).core.maximum = some ((10 : Rat) ^ w))
    ∧ (∀ w, whole = some w → 0 < w → qTruthy minv = false →
        (map_serializer_field cd f).core.minimum = some (-((10 : Rat) ^ w))) := by
  obtain ⟨nm, req, ro, wo, an, dr, ht, vs, rn, k⟩ := f
  simp only at hk
  subst hk
  subst hp
  obtain ⟨h1, h2, h3⟩ :=
    map_decimal_core cd nm req ro wo an dr ht rn vs c (some p) whole maxv minv
  have hpt : natTruthy (some p) = true := by
    simp [natTruthy]
    omega
  refine ⟨?_, ?_, ?_⟩
  · rw [h1]
    simp [hpt, decimalStep]
  · intro w hw hw0 hmx
    subst hw
    rw [h2]
    have hwt : natTruthy (some w) = true := by
      simp [natTruthy]
      omega
    rw [if_neg (by simp [hmx]), if_pos hwt]
    simp only [Option.getD_some, Option.some.injEq]
    exact_mod_cast repNine_add_one w
  · intro w hw hw0 hmn
    subst hw
    rw [h3]
    have hwt : natTruthy (some w) = true := by
      simp [natTruthy]
      omega
    rw [if_neg (by simp [hmn]), if_pos hwt]
    simp only [Option.getD_some, Option.some.injEq, neg_inj]
    exact_mod_cast repNine_add_one w

/-- Claim C3 witness: the amended theorem applied to a concrete decimal
field with two decimal places and two whole digits. -/
theorem decimal_fragment_amended_witness :
    (map_serializer_field true
      { name := "price", kind := .decimal none (some 2) (some 2) none none }).core.multipleOf
        = some (1 / (10 : Rat) ^ 2)
    ∧ (∀ w, (some 2 : Option Nat) = some w → 0 < w → qTruthy none = false →
        (map_serializer_field true
          { name := "price", kind := .decimal none (some 2) (some 2) none none }).core.maximum
          = some ((10 : Rat) ^ w))
    ∧ (∀ w, (some 2 : Option Nat) = some w → 0 < w → qTruthy none = false →
        (map_serializer_field true
          { name := "price", kind := .decimal none (some 2) (some 2) none none }).core.minimum
          = some (-((10 : Rat) ^ w))) :=
  decimal_fragment_amended true
    { name := "price", kind := .decimal none (some 2) (some 2) none none }
    none (some 2) (some 2) none none 2 rfl rfl (by norm_num)

/-! ## Claim C8 -/

/-- Claim C8 counterexample.  The claim says the fragment is marked
`format: int64` iff a derived bound exceeds the 32-bit signed range.
An integer field with `min_value = -3000000000` has a bound outside the
32-bit signed range (`< -2^31`), yet the produced fragment carries no
`format` key at all: the code compares both bounds only against the
upper limit `2147483647`. -/
theorem integer_int64_counterexample :
    (map_serializer_field true
      { name := "n", kind := .integer none (some (-3000000000)) }).core.format = none
    ∧ (map_serializer_field true
      { name := "n", kind := .integer none (some (-3000000000)) }).core.minimum
        = some (-3000000000)
    ∧ ((-3000000000 : Rat) < -2147483648) := by
  refine ⟨?_, ?_, by norm_num⟩ <;>
    norm_num [map_serializer_field, build_basic_type, map_min_max, append_meta,
      get_serializer_field_meta, qTruthy, intTrunc]

/-- Claim C8 (amended): an integer field's fragment is marked
`format: int64` iff a declared bound truncates to an integer strictly
greater than `2147483647` — the code compares both `maximum` and
`minimum` against the upper 32-bit limit only, so bounds below `-2^31`
never trigger `int64`.  In particular every integer field with an
integral declared bound greater than `2147483647` is marked `int64`. -/
theorem integer_int64_amended (cd : Bool) (nm : String) (req ro wo an : Bool)
    (dr ht rn : Option String) (vs : List Validator) (maxv minv : Option Rat) :
    ((map_serializer_field cd
        { name := nm, required := req, read_only := ro, write_only := wo,
          allow_null := an, defaultRepr := dr, help_text := ht, validators := vs,
          reprNone := rn, kind := .integer maxv minv }).core.format = some "int64"
      ↔ ((∃ q, maxv = some q ∧ 2147483647 < intTrunc q)
          ∨ (∃ q, minv = some q ∧ 2147483647 < intTrunc q)))
    ∧ (∀ z : Int, maxv = some (z : Rat) → 2147483647 < z →
        (map_serializer_field cd
          { name := nm, required := req, read_only := ro, write_only := wo,
            allow_null := an, defaultRepr := dr, help_text := ht, validators := vs,
            reprNone := rn, kind := .integer maxv minv }).core.format = some "int64") := by
  obtain ⟨h1, h2, h3⟩ :=
    map_integer_core cd nm req ro wo an dr ht rn vs maxv minv
  have key :
      ((if intTrunc ((if qTruthy maxv then maxv else none).getD 0) > 2147483647
          ∨ intTrunc ((if qTruthy minv then minv else none).getD 0) > 2147483647
        then some "int64" else (none : Option String)) = some "int64"
      ↔ ((∃ q, maxv = some q ∧ 2147483647 < intTrunc q)
          ∨ (∃ q, minv = some q ∧ 2147483647 < intTrunc q))) := by
    have side : ∀ v : Option Rat,
        (2147483647 < intTrunc ((if qTruthy v then v else none).getD 0)
          ↔ ∃ q, v = some q ∧ 2147483647 < intTrunc q) := by
      intro v
      rcases v with _ | q
      · simp [qTruthy, intTrunc_zero]
      · by_cases hq : q = 0
        · subst hq
          simp [qTruthy, intTrunc_zero]
        · simp [qTruthy, hq]
    constructor
    · intro h
      by_cases hcond : (2147483647 < intTrunc ((if qTruthy maxv then maxv else none).getD 0)
          ∨ 2147483647 < intTrunc ((if qTruthy minv then minv else none).getD 0))
      · rcases hcond with hl | hr
        · exact Or.inl ((side maxv).mp hl)
        · exact Or.inr ((side minv).mp hr)
      · simp [if_neg hcond] at h
    · intro h
      have hcond : (2147483647 < intTrunc ((if qTruthy maxv then maxv else none).getD 0)
          ∨ 2147483647 < intTrunc ((if qTruthy minv then minv else none).getD 0)) := by
        rcases h with hl | hr
        · exact Or.inl ((side maxv).mpr hl)
        · exact Or.inr ((side minv).mpr hr)
      simp [if_pos hcond]
  constructor
  · rw [h3]
    exact key
  · intro z hz hzl
    rw [h3]
    exact key.mpr
      (Or.inl ⟨(z : Rat), hz, by rw [intTrunc_intCast]; exact_mod_cast hzl⟩)

/-! ## Claim C10 -/

/-- Claim C10 counterexample.  The claim says any integer, float or
decimal field with a declared bound of `0` (falsy) gets no
`maximum`/`minimum` key.  A decimal field with `max_value = 0` but
`max_whole_digits = 2` still gets `maximum = 100` from the whole-digit
derivation, which `_map_min_max` does not touch. -/
theorem zero_bound_counterexample :
    (map_serializer_field true
      { name := "d", kind := .decimal none (some 0) (some 2) (some 0) none }).core.maximum
      = some 100 := by
  norm_num [map_serializer_field, build_basic_type, map_min_max, append_meta,
    get_serializer_field_meta, natTruthy, qTruthy, repNine]

/-- Claim C10 (amended): a falsy declared bound (`0` or absent)
contributes nothing through `_map_min_max` — the fragment is left
unchanged — and integer and float fields then carry no
`maximum`/`minimum` key at all; a decimal field, however, may still
carry digit-derived bounds (see the counterexample). -/
theorem zero_bound_amended (cd : Bool) (nm : String) (req ro wo an : Bool)
    (dr ht rn : Option String) (vs : List Validator) (maxv minv : Option Rat)
    (hmx : qTruthy maxv = false) (hmn : qTruthy minv = false) :
    (∀ c : JS, map_min_max maxv minv c = c)
    ∧ (map_serializer_field cd
        { name := nm, required := req, read_only := ro, write_only := wo,
          allow_null := an, defaultRepr := dr, help_text := ht, validators := vs,
          reprNone := rn, kind := .integer maxv minv }).core.maximum = none
    ∧ (map_serializer_field cd
        { name := nm, required := req, read_only := ro, write_only := wo,
          allow_null := an, defaultRepr := dr, help_text := ht, validators := vs,
          reprNone := rn, kind := .integer maxv minv }).core.minimum = none
    ∧ (map_serializer_field cd
        { name := nm, required := req, read_only := ro, write_only := wo,
          allow_null := an, defaultRepr := dr, help_text := ht, validators := vs,
          reprNone := rn, kind := .float maxv minv }).core.maximum = none
    ∧ (map_serializer_field cd
        { name := nm, required := req, read_only := ro, write_only := wo,
          allow_null := an, defaultRepr := dr, help_text := ht, validators := vs,
          reprNone := rn, kind := .float maxv minv }).core.minimum = none := by
  obtain ⟨h1, h2, h3⟩ :=
    map_integer_core cd nm req ro wo an dr ht rn vs maxv minv
  refine ⟨?_, ?_, ?_, ?_, ?_⟩
  · intro c
    simp [map_min_max, hmx, hmn]
  · rw [h1]; simp [hmx]
  · rw [h2]; simp [hmn]
  · simp [map_serializer_field, build_basic_type, map_min_max, append_meta,
      get_serializer_field_meta, hmx, hmn]
  · simp [map_serializer_field, build_basic_type, map_min_max, append_meta,
      get_serializer_field_meta, hmx, hmn]

/-- Claim C10 witness: the amended theorem applied to declared zero
bounds on a concrete field. -/
theorem zero_bound_amended_witness :
    (∀ c : JS, map_min_max (some 0) (some 0) c = c)
    ∧ (map_serializer_field false
        { name := "n", kind := .integer (some 0) (some 0) }).core.maximum = none
    ∧ (map_serializer_field false
        { name := "n", kind := .integer (some 0) (some 0) }).core.minimum = none
    ∧ (map_serializer_field false
        { name := "n", kind := .float (some 0) (some 0) }).core.maximum = none
    ∧ (map_serializer_field false
        { name := "n", kind := .float (some 0) (some 0) }).core.minimum = none :=
  zero_bound_amended false "n" false false false false none none none []
    (some 0) (some 0) (by simp [qTruthy]) (by simp [qTruthy])

/-! ## Claim C2 -/

/-- Claim C2 counterexample.  The claim says that for a GET route on a
view exposing list behavior, the result is false when the path contains
the lookup variable.  But the `ListModelMixin` check precedes the
lookup-variable check: a GET on a `ListModelMixin` `GenericAPIView` with
lookup field `id` and path variable `id` still yields `true`. -/
theorem is_list_view_counterexample :
    is_list_view_decl
      { action := none, isListModelMixin := true, isGenericAPIView := true,
        lookup_url_kwarg := none, lookup_field := "id" }
      .GET ["id"]
      (.ser { id := 1, className := "XSerializer" }) = true := by
  rfl

/-- Claim C2 (amended): the heuristic follows the code's priority —
dict override's lowest string-ordered code, multi-valued body, basic
body, `action` attribute, non-GET, list mixin, lookup variable, default.
Consequently: (1) for a GET with a plain serializer declaration and no
`action` attribute the result equals the list-mixin flag — the lookup
variable has no effect, because the mixin rule precedes the lookup rule
and both remaining branches return false; (2) a DELETE with a plain
declaration and no `action` is never a list; (3) a view exposing an
`action` is a list iff the action equals `"list"`, for every method
including DELETE; (4) a dict override whose lowest code maps to a
multi-valued body is a list. -/
theorem is_list_view_amended (view : ViewInfo) (method : HttpMethod)
    (pv : List String) (s : PlainSer) :
    (view.action = none →
        is_list_view_decl view .GET pv (.ser s) = view.isListModelMixin)
    ∧ (view.action = none →
        is_list_view_decl view .DELETE pv (.ser s) = false)
    ∧ (∀ a, view.action = some a →
        is_list_view_decl view method pv (.ser s) = (a == "list"))
    ∧ (∀ child es, pyDictMinVal (pyStrDict es) = some (.listSer child) →
        is_list_view_decl view method pv (.codeDict es) = true) := by
  refine ⟨?_, ?_, ?_, ?_⟩
  · intro ha
    cases hm : view.isListModelMixin <;>
      simp [is_list_view_decl, is_list_view_val, is_list_view_core,
        HttpMethod.lower, ha, hm]
  · intro ha
    simp [is_list_view_decl, is_list_view_val, is_list_view_core,
      HttpMethod.lower, ha]
  · intro a ha
    simp [is_list_view_decl, is_list_view_val, is_list_view_core, ha]
  · intro child es hmin
    simp [is_list_view_decl, hmin, is_list_view_val]

/-- Claim C2 witness: the amended theorem applied to a concrete view,
method, path and serializer. -/
theorem is_list_view_amended_witness :
    (viewListMixin.action = none →
        is_list_view_decl viewListMixin .GET ["id"] (.ser serX)
          = viewListMixin.isListModelMixin)
    ∧ (viewListMixin.action = none →
        is_list_view_decl viewListMixin .DELETE ["id"] (.ser serX) = false)
    ∧ (∀ a, viewListMixin.action = some a →
        is_list_view_decl viewListMixin .DELETE ["id"] (.ser serX) = (a == "list"))
    ∧ (∀ child es, pyDictMinVal (pyStrDict es) = some (.listSer child) →
        is_list_view_decl viewListMixin .DELETE ["id"] (.codeDict es) = true) :=
  is_list_view_amended viewListMixin .DELETE ["id"] serX

/-! ## Claim C7 -/

/-- Unrolling the field loop of `_map_basic_serializer`: the collected
`required` names are the names of the non-hidden fields satisfying
`reqPred`, and the properties are the non-hidden fields' validated
fragments, both in declaration order. -/
theorem map_basic_step_fold (cd : Bool) (fields : List FieldInfo)
    (r : List String) (p : List (String × JS)) :
    fields.foldl (map_basic_step cd) (r, p)
      = (r ++ (fields.filter
            (fun f => !(f.kind == .hidden) && reqPred cd f)).map FieldInfo.name,
         p ++ (fields.filter (fun f => !(f.kind == .hidden))).map
            (fun f => (f.name,
              safe_ref (map_field_validators f (map_serializer_field cd f))))) := by
  induction fields generalizing r p with
  | nil => simp
  | cons f rest ih =>
      by_cases hh : f.kind = .hidden
      · simp [map_basic_step, hh, ih]
      · by_cases hr : (f.required || jsReadOnly (map_serializer_field cd f)) = true
        · simp [map_basic_step, hh, hr, reqPred, ih, List.append_assoc]
        · simp [map_basic_step, hh, hr, reqPred, ih, List.append_assoc]

/-- Claim C7: in the object schema built for a serializer, a non-hidden
field's name is in `required` iff the field is declared required or its
resolved fragment is `readOnly` — except that when patch splitting is
active for a PATCH request, `required` is empty. -/
theorem required_membership (ctx : Ctx) (s : PlainSer) (dir : Direction)
    (hn : (s.fields.map FieldInfo.name).Nodup) :
    (patchSuppressed ctx dir = true →
        (map_basic_serializer ctx s dir).core.required = [])
    ∧ (patchSuppressed ctx dir = false →
        ∀ f ∈ s.fields, ¬ f.kind = .hidden →
          (f.name ∈ (map_basic_serializer ctx s dir).core.required
            ↔ (f.required = true
                ∨ jsReadOnly (map_serializer_field ctx.coerceDecimalToString f)
                    = true))) := by
  have hfold := map_basic_step_fold ctx.coerceDecimalToString s.fields [] []
  constructor
  · intro hp
    simp [map_basic_serializer, build_object_type, hp]
  · intro hp f hf hfh
    have hreq : (map_basic_serializer ctx s dir).core.required
        = (s.fields.filter
            (fun g => !(g.kind == .hidden)
              && reqPred ctx.coerceDecimalToString g)).map FieldInfo.name := by
      simp [map_basic_serializer, build_object_type, hp, hfold]
    rw [hreq]
    constructor
    · intro hmem
      obtain ⟨g, hg, hgname⟩ := List.mem_map.mp hmem
      obtain ⟨hgmem, hgpred⟩ := List.mem_filter.mp hg
      have hgf : g = f := List.inj_on_of_nodup_map hn hgmem hf hgname
      subst hgf
      have hpred : reqPred ctx.coerceDecimalToString g = true := by
        simp only [Bool.and_eq_true] at hgpred
        exact hgpred.2
      simpa [reqPred, Bool.or_eq_true] using hpred
    · intro hdisj
      refine List.mem_map.mpr ⟨f, List.mem_filter.mpr ⟨hf, ?_⟩, rfl⟩
      have hhb : (f.kind == .hidden) = false := by
        simpa using hfh
      simp [hhb, reqPred, Bool.or_eq_true]
      exact hdisj

/-- Claim C7 witness: the theorem applied to a concrete serializer with
one read-only and one required field under a POST context. -/
theorem required_membership_witness :
    (patchSuppressed ctxPost .response = true →
        (map_basic_serializer ctxPost serRW .response).core.required = [])
    ∧ (patchSuppressed ctxPost .response = false →
        ∀ f ∈ serRW.fields, ¬ f.kind = .hidden →
          (f.name ∈ (map_basic_serializer ctxPost serRW .response).core.required
            ↔ (f.required = true
                ∨ jsReadOnly (map_serializer_field ctxPost.coerceDecimalToString f)
                    = true))) :=
  required_membership ctxPost serRW .response (by decide)

/-! ## Registry lemmas (fresh identities) -/

/-- A registry containing no entry with identity `i` does not contain a
component with that identity. -/
theorem regContains_false {reg : Registry} {i : Nat}
    (h : ∀ e ∈ reg, e.objId ≠ some i) {c : RComp} (hc : c.objId = some i) :
    regContains reg c = false := by
  simp only [regContains, List.any_eq_false]
  intro e he
  simp [sameId, hc, h e he]

/-- `regRegister` appends its (possibly renamed) component. -/
theorem regRegister_snd (reg : Registry) (c : RComp) :
    (regRegister reg c).2 = reg ++ [(regRegister reg c).1] := rfl

/-- Renaming does not change the registered identity. -/
theorem regRegister_objId (reg : Registry) (c : RComp) :
    (regRegister reg c).1.objId = c.objId := by
  simp only [regRegister]
  split <;> rfl

/-- Renaming does not change the registered component kind. -/
theorem regRegister_ctype (reg : Registry) (c : RComp) :
    (regRegister reg c).1.ctype = c.ctype := by
  simp only [regRegister]
  split <;> rfl

/-- Renaming maps a present name to a present name. -/
theorem regRegister_name_isSome (reg : Registry) (c : RComp) :
    (regRegister reg c).1.name.isSome = c.name.isSome := by
  simp only [regRegister]
  split
  · cases c.name <;> rfl
  · rfl

/-- Setting the schema on a freshly appended entry only rewrites that
entry. -/
theorem regSetSchema_fresh_append {reg : Registry} {i : Nat}
    (h : ∀ e ∈ reg, e.objId ≠ some i) (c' : RComp) (hc' : c'.objId = some i)
    (js : JS) :
    regSetSchema (reg ++ [c']) { c' with schema := some js } js
      = reg ++ [{ c' with schema := some js }] := by
  simp only [regSetSchema, List.map_append]
  congr 1
  · have : ∀ e ∈ reg,
        (if sameId e { c' with schema := some js } then { e with schema := some js }
         else e) = e := by
      intro e he
      have : sameId e { c' with schema := some js } = false := by
        simp [sameId, hc', h e he]
      simp [this]
    calc reg.map _ = reg.map id := List.map_congr_left this
    _ = reg := List.map_id reg
  · have : sameId c' { c' with schema := some js } = true := by
      simp [sameId]
    simp [this]

/-- Erasing the freshly appended identity restores the registry. -/
theorem regErase_fresh_append {reg : Registry} {i : Nat}
    (h : ∀ e ∈ reg, e.objId ≠ some i) (entry c : RComp)
    (hc : c.objId = some i) (he : sameId entry c = true) :
    regErase (reg ++ [entry]) c = reg := by
  simp only [regErase, List.filter_append]
  have h1 : reg.filter (fun e => !sameId e c) = reg := by
    apply List.filter_eq_self.mpr
    intro e hemem
    have : sameId e c = false := by
      simp [sameId, hc, h e hemem]
    simp [this]
  have h2 : [entry].filter (fun e => !sameId e c) = [] := by
    simp [List.filter, he]
  rw [h1, h2, List.append_nil]

/-- Lookup in a registry extended with a matching entry, all earlier
entries having different identities, returns that entry. -/
theorem regLookup_fresh_append {reg : Registry} {i : Nat}
    (h : ∀ e ∈ reg, e.objId ≠ some i) (entry c : RComp)
    (hc : c.objId = some i) (he : sameId entry c = true) :
    regLookup (reg ++ [entry]) c = entry := by
  simp only [regLookup]
  have hfind : (reg ++ [entry]).find? (fun e => sameId e c) = some entry := by
    induction reg with
    | nil => simp [List.find?, he]
    | cons a rest ih =>
        have ha : sameId a c = false := by
          simp [sameId, hc, h a (List.mem_cons_self a rest)]
        have hrest : ∀ e ∈ rest, e.objId ≠ some i := fun e hem =>
          h e (List.mem_cons_of_mem a hem)
        simp only [List.cons_append, List.find?, ha]
        exact ih hrest
  simp [hfind]

/-- De Morgan form of the `keep_component` condition. -/
theorem keep_eq_not_empty (js : JS) :
    (!js.core.oneOf.isEmpty || !js.core.allOf.isEmpty ||
      !js.core.anyOf.isEmpty || !js.core.properties.isEmpty)
      = !isEmptyObjSchema js := by
  simp [isEmptyObjSchema]

/-- Closed form of `resolve_serializer` on a registry that does not yet
hold the serializer's identity. -/
theorem resolve_serializer_fresh (ctx : Ctx) (s : PlainSer) (dir : Direction)
    (reg₀ : Registry) (hfresh : ∀ e ∈ reg₀, e.objId ≠ some s.id) :
    resolve_serializer ctx s dir reg₀
      = (if isEmptyObjSchema (map_serializer ctx s dir) = true
         then (RComp.sentinel, reg₀)
         else
          ({ (regRegister reg₀
                { name := some (get_serializer_name ctx s dir),
                  ctype := some .schema, objId := some s.id }).1 with
              schema := some (map_serializer ctx s dir) },
            reg₀ ++ [{ (regRegister reg₀
                { name := some (get_serializer_name ctx s dir),
                  ctype := some .schema, objId := some s.id }).1 with
              schema := some (map_serializer ctx s dir) }])) := by
  have hcont : regContains reg₀
      { name := some (get_serializer_name ctx s dir), ctype := some .schema,
        objId := some s.id } = false :=
    regContains_false hfresh rfl
  have hobj := regRegister_objId reg₀
    { name := some (get_serializer_name ctx s dir), ctype := some .schema,
      objId := some s.id }
  simp only [resolve_serializer, hcont, Bool.false_eq_true, if_false,
    regRegister_snd, keep_eq_not_empty]
  rw [regSetSchema_fresh_append hfresh _ hobj]
  by_cases hkeep : isEmptyObjSchema (map_serializer ctx s dir) = true
  · rw [if_neg (by simp [hkeep]), if_pos hkeep]
    rw [regErase_fresh_append hfresh _ _ (by simp [hobj]) (by simp [sameId])]
  · rw [if_pos (by simp [hkeep]), if_neg hkeep]

/-! ## Claim C1 -/

/-- Claim C1: registration is idempotent — resolving the same serializer
identity a second time returns the previously stored component and the
unchanged registry, and the registry holds at most one (exactly one,
when the component was kept) entry for that identity. -/
theorem resolve_serializer_idempotent (ctx : Ctx) (s : PlainSer) (dir : Direction)
    (reg₀ : Registry) (hfresh : ∀ e ∈ reg₀, e.objId ≠ some s.id) :
    ((resolve_serializer ctx s dir (resolve_serializer ctx s dir reg₀).2).1
        = (resolve_serializer ctx s dir reg₀).1)
    ∧ ((resolve_serializer ctx s dir (resolve_serializer ctx s dir reg₀).2).2
        = (resolve_serializer ctx s dir reg₀).2)
    ∧ ((resolve_serializer ctx s dir reg₀).2.countP
          (fun e => e.objId == some s.id) ≤ 1)
    ∧ ((resolve_serializer ctx s dir reg₀).1.truthy = true →
        (resolve_serializer ctx s dir reg₀).2.countP
          (fun e => e.objId == some s.id) = 1) := by
  have hres1 := resolve_serializer_fresh ctx s dir reg₀ hfresh
  have hcount0 : reg₀.countP (fun e => e.objId == some s.id) = 0 := by
    apply List.countP_eq_zero.mpr
    intro e he
    simp [hfresh e he]
  have hobj := regRegister_objId reg₀
    { name := some (get_serializer_name ctx s dir), ctype := some .schema,
      objId := some s.id }
  have hct := regRegister_ctype reg₀
    { name := some (get_serializer_name ctx s dir), ctype := some .schema,
      objId := some s.id }
  have hnm := regRegister_name_isSome reg₀
    { name := some (get_serializer_name ctx s dir), ctype := some .schema,
      objId := some s.id }
  by_cases hkeep : isEmptyObjSchema (map_serializer ctx s dir) = true
  · rw [if_pos hkeep] at hres1
    refine ⟨?_, ?_, ?_, ?_⟩
    · rw [hres1]
      rw [hres1]
    · rw [hres1]
      rw [hres1]
    · rw [hres1]
      simp [hcount0]
    · rw [hres1]
      intro htr
      simp [RComp.truthy, RComp.sentinel] at htr
  · rw [if_neg hkeep] at hres1
    have hsame : sameId
        { (regRegister reg₀
            { name := some (get_serializer_name ctx s dir),
              ctype := some .schema, objId := some s.id }).1 with
          schema := some (map_serializer ctx s dir) }
        { name := some (get_serializer_name ctx s dir), ctype := some .schema,
          objId := some s.id } = true := by
      simp [sameId, hobj, hct]
    have hcont2 : regContains (resolve_serializer ctx s dir reg₀).2
        { name := some (get_serializer_name ctx s dir), ctype := some .schema,
          objId := some s.id } = true := by
      rw [hres1]
      simp only [regContains, List.any_append, List.any_cons, List.any_nil,
        Bool.or_false, hsame, Bool.or_true]
    refine ⟨?_, ?_, ?_, ?_⟩
    · conv_lhs => rw [resolve_serializer]
      rw [if_pos hcont2]  -- hmm: Bool condition coercion
      rw [hres1]
      exact regLookup_fresh_append hfresh _ _ rfl hsame
    · conv_lhs => rw [resolve_serializer]
      rw [if_pos hcont2]
    · rw [hres1]
      simp [List.countP_append, hcount0, List.countP_cons, hobj]
    · intro _
      rw [hres1]
      simp [List.countP_append, hcount0, List.countP_cons, hobj]

/-- Claim C1 witness: the idempotence theorem applied to a concrete
serializer on an empty registry. -/
theorem resolve_serializer_idempotent_witness :
    ((resolve_serializer ctxPost serX .response
        (resolve_serializer ctxPost serX .response ([] : Registry)).2).1
        = (resolve_serializer ctxPost serX .response ([] : Registry)).1)
    ∧ ((resolve_serializer ctxPost serX .response
        (resolve_serializer ctxPost serX .response ([] : Registry)).2).2
        = (resolve_serializer ctxPost serX .response ([] : Registry)).2)
    ∧ ((resolve_serializer ctxPost serX .response ([] : Registry)).2.countP
          (fun e => e.objId == some serX.id) ≤ 1)
    ∧ ((resolve_serializer ctxPost serX .response ([] : Registry)).1.truthy = true →
        (resolve_serializer ctxPost serX .response ([] : Registry)).2.countP
          (fun e => e.objId == some serX.id) = 1) :=
  resolve_serializer_idempotent ctxPost serX .response [] (by simp)

/-! ## Claim C6 -/

/-- Claim C6: a serializer whose mapped schema has no composition
keywords and no properties is evicted from the registry and resolved to
the sentinel; consequently the request-body builder emits no body and
the response builder emits a `No response body` entry. -/
theorem empty_schema_discarded (ctx : Ctx) (s : PlainSer) (reg₀ : Registry)
    (hfresh : ∀ e ∈ reg₀, e.objId ≠ some s.id)
    (hreq : ctx.requestDecl = .ser s) (hm : ctx.method = .POST)
    (hreqE : isEmptyObjSchema (map_serializer ctx s .request) = true)
    (hrespE : isEmptyObjSchema (map_serializer ctx s .response) = true) :
    (resolve_serializer ctx s .request reg₀).1 = RComp.sentinel
    ∧ (resolve_serializer ctx s .request reg₀).2 = reg₀
    ∧ get_request_body ctx reg₀ = (none, reg₀)
    ∧ get_response_for_code ctx (.plain s) reg₀ = (noBodyEntry, reg₀) := by
  have h1 := resolve_serializer_fresh ctx s .request reg₀ hfresh
  rw [if_pos hreqE] at h1
  have h2 := resolve_serializer_fresh ctx s .response reg₀ hfresh
  rw [if_pos hrespE] at h2
  refine ⟨by rw [h1], by rw [h1], ?_, ?_⟩
  · simp [get_request_body, hm, hreq, h1, RComp.truthy, RComp.sentinel]
  · simp [get_response_for_code, h2, RComp.truthy, RComp.sentinel]

/-- Claim C6 witness: the discard theorem applied to the empty
serializer under a POST context with an empty registry. -/
theorem empty_schema_discarded_witness :
    (resolve_serializer ctxEmptyPost serEmpty .request ([] : Registry)).1
        = RComp.sentinel
    ∧ (resolve_serializer ctxEmptyPost serEmpty .request ([] : Registry)).2 = []
    ∧ get_request_body ctxEmptyPost [] = (none, [])
    ∧ get_response_for_code ctxEmptyPost (.plain serEmpty) []
        = (noBodyEntry, []) :=
  empty_schema_discarded ctxEmptyPost serEmpty [] (by simp) rfl rfl
    (by rfl) (by rfl)

/-! ## Claim C5 -/

/-- Claim C5 (code bug): the polymorphic extension's `map_serializer`
never returns the claimed `oneOf`/`discriminator` fragment for a proxy
with at least one sub-serializer.  `serializers.py:32` calls
`auto_schema.resolve_serializer(method, sub_serializer)` while
`openapi.py:909` declares `resolve_serializer(self, serializer,
direction)`, so the direction string lands in the serializer slot and
the `assert is_serializer(serializer)` guard aborts the resolution
(modelled by `none`). -/
theorem polymorphic_swapped_call_aborts :
    poly_map_serializer { method := .GET } "resourcetype"
      [{ id := 3, className := "LegalSerializer",
         fields := [{ name := "resourcetype", reprNone := some "legal" }] }]
      .response [] = none := rfl

/-! ## Claim C9 -/

/-- Updating a dict at an absent key appends. -/
theorem pyUpd_of_not_mem {κ α : Type} [BEq κ] (d : List (κ × α)) (k : κ) (v : α)
    (h : d.any (fun kv => kv.1 == k) = false) : pyUpd d k v = d ++ [(k, v)] := by
  simp [pyUpd, h]

/-- Keys of the per-status-code response dict: with pairwise distinct
stringified codes, the dict holds exactly one entry per declared code,
in declaration order. -/
theorem resp_codeDict_keys (ctx : Ctx) (es : List (Int × SerVal))
    (d₀ : List (String × RespEntry)) (reg₀ : Registry)
    (hfresh : ∀ e ∈ es, ∀ kv ∈ d₀, kv.1 ≠ toString e.1)
    (hnd : (es.map (fun e => toString e.1)).Nodup) :
    (es.foldl (fun acc e =>
        let er := get_response_for_code ctx e.2 acc.2
        (pyUpd acc.1 (toString e.1) er.1, er.2)) (d₀, reg₀)).1.map Prod.fst
      = d₀.map Prod.fst ++ es.map (fun e => toString e.1) := by
  induction es generalizing d₀ reg₀ with
  | nil => simp
  | cons e rest ih =>
      have hany : d₀.any (fun kv => kv.1 == toString e.1) = false := by
        rw [List.any_eq_false]
        intro kv hkv
        simp [hfresh e (List.mem_cons_self e rest) kv hkv]
      have hfresh' : ∀ e' ∈ rest,
          ∀ kv ∈ d₀ ++ [(toString e.1,
              (get_response_for_code ctx e.2 reg₀).1)], kv.1 ≠ toString e'.1 := by
        intro e' he' kv hkv
        rcases List.mem_append.mp hkv with hin | hin
        · exact hfresh e' (List.mem_cons_of_mem e he') kv hin
        · have hkv1 : kv.1 = toString e.1 := by
            simp only [List.mem_singleton] at hin
            rw [hin]
          rw [hkv1]
          have hnotin := (List.nodup_cons.mp hnd).1
          intro hcontra
          apply hnotin
          show toString e.1 ∈ List.map (fun x => toString x.1) rest
          rw [hcontra]
          exact List.mem_map_of_mem (fun x => toString x.1) he'
      have hnd' : (rest.map (fun e => toString e.1)).Nodup :=
        (List.nodup_cons.mp hnd).2
      simp only [List.foldl_cons]
      rw [show (let er := get_response_for_code ctx e.2 reg₀
            ((pyUpd d₀ (toString e.1) er.1, er.2)
              : List (String × RespEntry) × Registry))
          = (d₀ ++ [(toString e.1, (get_response_for_code ctx e.2 reg₀).1)],
             (get_response_for_code ctx e.2 reg₀).2) from by
        simp [pyUpd_of_not_mem _ _ _ hany]]
      rw [ih _ _ hfresh' hnd']
      simp

/-- Claim C9 counterexample.  The claim says a single-serializer
response declaration yields exactly one entry keyed `"200"`, with `204`
reserved for a DELETE with no declared schema.  But the code returns
`{'204': 'No response body'}` for every DELETE whose declaration is a
serializer or basic type — here a DELETE with a real declared serializer
still yields key `"204"`. -/
theorem delete_response_counterexample :
    (get_response_bodies ctxDeleteSer []).1 = [("204", noBodyEntry)]
    ∧ ("204" : String) ≠ "200" :=
  ⟨rfl, by decide⟩

/-- Claim C9 (amended): a single serializer/basic declaration yields
exactly one entry — keyed `"204"` with no body for any DELETE
(regardless of the declared schema), `"200"` otherwise; a dict
declaration with distinct stringified codes yields exactly one entry
per declared code, keyed by the stringified code; and the concrete POST
override `{200: A, 404: B}` yields exactly `"200"` and `"404"`
referencing A's and B's components. -/
theorem response_bodies_amended (ctx : Ctx) (reg : Registry) :
    (∀ s, ctx.responseDecl = .ser s → ctx.method ≠ .DELETE →
        (get_response_bodies ctx reg).1.map Prod.fst = ["200"])
    ∧ (∀ c, ctx.responseDecl = .listSer c → ctx.method ≠ .DELETE →
        (get_response_bodies ctx reg).1.map Prod.fst = ["200"])
    ∧ (∀ t, ctx.responseDecl = .basic t → ctx.method ≠ .DELETE →
        (get_response_bodies ctx reg).1.map Prod.fst = ["200"])
    ∧ (∀ s, ctx.responseDecl = .ser s → ctx.method = .DELETE →
        (get_response_bodies ctx reg).1 = [("204", noBodyEntry)])
    ∧ (∀ es, ctx.responseDecl = .codeDict es →
        (es.map (fun e => toString e.1)).Nodup →
        (get_response_bodies ctx reg).1.map Prod.fst
          = es.map (fun e => toString e.1))
    ∧ ((get_response_bodies ctxPostAB ([] : Registry)).1.map
          (fun kv => (kv.1, kv.2.content.map (fun c =>
            c.map (fun mt => (mt.1, mt.2.core.ref)))))
        = [("200", some [("application/json", some "#/components/schemas/A")]),
           ("404", some [("application/json", some "#/components/schemas/B")])]) := by
  refine ⟨?_, ?_, ?_, ?_, ?_, ?_⟩
  · intro s hd hm
    have hb : (ctx.method == HttpMethod.DELETE) = false := by
      simp [hm]
    simp [get_response_bodies, hd, hb]
  · intro c hd hm
    have hb : (ctx.method == HttpMethod.DELETE) = false := by
      simp [hm]
    simp [get_response_bodies, hd, hb]
  · intro t hd hm
    have hb : (ctx.method == HttpMethod.DELETE) = false := by
      simp [hm]
    simp [get_response_bodies, hd, hb]
  · intro s hd hm
    simp [get_response_bodies, hd, hm]
  · intro es hd hnd
    simp only [get_response_bodies, hd]
    have := resp_codeDict_keys ctx es [] reg (by simp) hnd
    simpa using this
  · rfl

/-- Claim C9 witness: the amended theorem applied to the concrete
DELETE context with a declared serializer and the empty registry. -/
theorem response_bodies_amended_witness :
    (∀ s, ctxDeleteSer.responseDecl = .ser s → ctxDeleteSer.method ≠ .DELETE →
        (get_response_bodies ctxDeleteSer []).1.map Prod.fst = ["200"])
    ∧ (∀ c, ctxDeleteSer.responseDecl = .listSer c → ctxDeleteSer.method ≠ .DELETE →
        (get_response_bodies ctxDeleteSer []).1.map Prod.fst = ["200"])
    ∧ (∀ t, ctxDeleteSer.responseDecl = .basic t → ctxDeleteSer.method ≠ .DELETE →
        (get_response_bodies ctxDeleteSer []).1.map Prod.fst = ["200"])
    ∧ (∀ s, ctxDeleteSer.responseDecl = .ser s → ctxDeleteSer.method = .DELETE →
        (get_response_bodies ctxDeleteSer []).1 = [("204", noBodyEntry)])
    ∧ (∀ es, ctxDeleteSer.responseDecl = .codeDict es →
        (es.map (fun e => toString e.1)).Nodup →
        (get_response_bodies ctxDeleteSer []).1.map Prod.fst
          = es.map (fun e => toString e.1))
    ∧ ((get_response_bodies ctxPostAB ([] : Registry)).1.map
          (fun kv => (kv.1, kv.2.content.map (fun c =>
            c.map (fun mt => (mt.1, mt.2.core.ref)))))
        = [("200", some [("application/json", some "#/components/schemas/A")]),
           ("404", some [("application/json", some "#/components/schemas/B")])]) :=
  response_bodies_amended ctxDeleteSer []

/-! ## Claim C4: dictionary lemmas -/

/-- First-of-two choice: present first argument wins. -/
@[simp] theorem oElse_some (x : Param) (b : Option Param) :
    oElse (some x) b = some x := rfl

/-- First-of-two choice: absent first argument defers. -/
@[simp] theorem oElse_none (b : Option Param) : oElse none b = b := rfl

/-- A last-write fold starting from an arbitrary accumulator. -/
theorem lastEntry_foldl_acc (es : List ((String × String) × Param))
    (k : String × String) (acc : Option Param) :
    es.foldl (fun a kv => if kv.1 == k then some kv.2 else a) acc
      = oElse (lastEntry es k) acc := by
  induction es generalizing acc with
  | nil => simp [lastEntry]
  | cons kv rest ih =>
      have hcons : lastEntry (kv :: rest) k
          = oElse (lastEntry rest k) (if kv.1 == k then some kv.2 else none) := by
        show rest.foldl _ (if kv.1 == k then some kv.2 else none) = _
        exact ih _
      rw [List.foldl_cons, ih, hcons]
      cases hL : lastEntry rest k <;> cases hk : kv.1 == k <;> simp [hk]

/-- Unfolding `lastEntry` over a cons cell. -/
theorem lastEntry_cons (kv : (String × String) × Param)
    (rest : List ((String × String) × Param)) (k : String × String) :
    lastEntry (kv :: rest) k
      = oElse (lastEntry rest k) (if kv.1 == k then some kv.2 else none) := by
  show rest.foldl _ (if kv.1 == k then some kv.2 else none) = _
  exact lastEntry_foldl_acc rest k _

/-- `lastAt` over a parameter list is `lastEntry` over its keyed
entries. -/
theorem lastAt_eq_lastEntry (ps : List Param) (k : String × String) :
    lastAt ps k = lastEntry (ps.map (fun p => (paramKey p, p))) k := by
  simp [lastAt, lastEntry, List.foldl_map]

/-- Lookup distributes over an append. -/
theorem dictLookup_append (d1 d2 : List ((String × String) × Param))
    (k : String × String) :
    dictLookup (d1 ++ d2) k = oElse (dictLookup d1 k) (dictLookup d2 k) := by
  induction d1 with
  | nil => simp [dictLookup]
  | cons kv rest ih =>
      by_cases hk : (kv.1 == k) = true <;>
        simp [dictLookup, List.find?, hk] <;>
        simpa [dictLookup] using ih

/-- A key absent from a dict looks up to nothing. -/
theorem dictLookup_none_of_any_false (d : List ((String × String) × Param))
    (k : String × String) (h : d.any (fun kv => kv.1 == k) = false) :
    dictLookup d k = none := by
  have hfind : d.find? (fun kv => kv.1 == k) = none :=
    List.find?_eq_none.mpr (fun kv hkv => by
      simpa using List.any_eq_false.mp h kv hkv)
  simp [dictLookup, hfind]

/-- Rewriting every entry at key `k'` to value `v` makes `k'` look up to
`v`, provided the key occurs. -/
theorem dictLookup_mapUpd_eq (d : List ((String × String) × Param))
    (k' : String × String) (v : Param)
    (hany : d.any (fun kv => kv.1 == k') = true) :
    dictLookup (d.map (fun kv => if kv.1 == k' then (k', v) else kv)) k'
      = some v := by
  induction d with
  | nil => simp at hany
  | cons kv rest ih =>
      by_cases hkv : (kv.1 == k') = true
      · simp [dictLookup, List.find?, hkv]
      · have hrest : rest.any (fun kv => kv.1 == k') = true := by
          simpa [List.any_cons, hkv] using hany
        simpa [dictLookup, List.find?, hkv] using ih hrest

/-- Rewriting entries at a different key leaves a lookup unchanged. -/
theorem dictLookup_mapUpd_ne (d : List ((String × String) × Param))
    (k' : String × String) (v : Param) (k : String × String)
    (h : (k' == k) = false) :
    dictLookup (d.map (fun kv => if kv.1 == k' then (k', v) else kv)) k
      = dictLookup d k := by
  induction d with
  | nil => simp [dictLookup]
  | cons kv rest ih =>
      by_cases hkv : (kv.1 == k') = true
      · have hk1 : kv.1 = k' := eq_of_beq hkv
        have hne : (kv.1 == k) = false := by
          rw [hk1]
          exact h
        simpa [dictLookup, List.find?, hkv, h, hne] using ih
      · by_cases hk2 : (kv.1 == k) = true <;>
          simp [dictLookup, List.find?, hkv, hk2] <;>
          simpa [dictLookup] using ih

/-- The Python dict write `d[k'] = v` seen through a lookup: `k'` now
holds `v`, every other key is unchanged. -/
theorem dictLookup_pyUpd (d : List ((String × String) × Param))
    (k' : String × String) (v : Param) (k : String × String) :
    dictLookup (pyUpd d k' v) k
      = if k' == k then some v else dictLookup d k := by
  by_cases hany : d.any (fun kv => kv.1 == k') = true
  · simp only [pyUpd, hany, if_true]
    by_cases hk : (k' == k) = true
    · have hkk : k' = k := eq_of_beq hk
      subst hkk
      rw [if_pos hk]
      exact dictLookup_mapUpd_eq d k' v hany
    · rw [if_neg hk]
      exact dictLookup_mapUpd_ne d k' v k (Bool.eq_false_iff.mpr hk)
  · have hanyf : d.any (fun kv => kv.1 == k') = false :=
      Bool.eq_false_iff.mpr hany
    simp only [pyUpd, hanyf, Bool.false_eq_true, if_false]
    rw [dictLookup_append]
    by_cases hk : (k' == k) = true
    · have hkk : k' = k := eq_of_beq hk
      subst hkk
      rw [dictLookup_none_of_any_false d k' hanyf, if_pos hk]
      simp [dictLookup, List.find?, hk]
    · rw [if_neg hk]
      have hkf : (k' == k) = false := Bool.eq_false_iff.mpr hk
      cases hd : dictLookup d k <;> simp [dictLookup, List.find?, hkf, hd]

/-- Folding Python dict writes: the last write among `es` wins,
deferring to the base dict. -/
theorem dictLookup_foldE (es : List ((String × String) × Param))
    (d : List ((String × String) × Param)) (k : String × String) :
    dictLookup (es.foldl (fun acc kv => pyUpd acc kv.1 kv.2) d) k
      = oElse (lastEntry es k) (dictLookup d k) := by
  induction es generalizing d with
  | nil => simp [lastEntry]
  | cons kv rest ih =>
      rw [List.foldl_cons, ih, lastEntry_cons]
      rw [dictLookup_pyUpd]
      cases hL : lastEntry rest k <;> by_cases hk : (kv.1 == k) = true <;>
        simp [hk]

/-- `dict_helper` is the entry-fold of Python dict writes over the
keyed parameters. -/
theorem dict_helper_eq_foldE (ps : List Param) :
    dict_helper ps
      = (ps.map (fun p => (paramKey p, p))).foldl
          (fun acc kv => pyUpd acc kv.1 kv.2) [] := by
  simp [dict_helper, List.foldl_map]

/-- Keys after a dict write: unchanged when the key was present,
appended otherwise. -/
theorem pyUpd_keys (d : List ((String × String) × Param))
    (k : String × String) (v : Param) :
    (pyUpd d k v).map Prod.fst
      = if d.any (fun kv => kv.1 == k) then d.map Prod.fst
        else d.map Prod.fst ++ [k] := by
  by_cases hany : d.any (fun kv => kv.1 == k) = true
  · simp only [pyUpd, hany, if_true]
    rw [List.map_map]
    apply List.map_congr_left
    intro kv _
    by_cases hkv : (kv.1 == k) = true
    · simp [hkv, eq_of_beq hkv]
    · have hne : kv.1 ≠ k := fun hc => hkv (by simp [hc])
      simp [hne]
  · have hanyf : d.any (fun kv => kv.1 == k) = false :=
      Bool.eq_false_iff.mpr hany
    simp [pyUpd, hanyf]

/-- A dict write preserves key distinctness. -/
theorem keysNodup_pyUpd (d : List ((String × String) × Param))
    (k : String × String) (v : Param) (h : (d.map Prod.fst).Nodup) :
    ((pyUpd d k v).map Prod.fst).Nodup := by
  rw [pyUpd_keys]
  by_cases hany : d.any (fun kv => kv.1 == k) = true
  · simpa [hany] using h
  · have hanyf : d.any (fun kv => kv.1 == k) = false :=
      Bool.eq_false_iff.mpr hany
    have hnot : k ∉ d.map Prod.fst := by
      intro hmem
      obtain ⟨kv, hkv, hk1⟩ := List.mem_map.mp hmem
      have := List.any_eq_false.mp hanyf kv hkv
      simp [hk1] at this
    simp only [hanyf, Bool.false_eq_true, if_false]
    rw [List.nodup_append]
    exact ⟨h, List.nodup_singleton k, by simpa using hnot⟩

/-- An entry-fold of dict writes preserves key distinctness. -/
theorem keysNodup_foldE (es : List ((String × String) × Param))
    (d : List ((String × String) × Param)) (h : (d.map Prod.fst).Nodup) :
    (((es.foldl (fun acc kv => pyUpd acc kv.1 kv.2) d)).map Prod.fst).Nodup := by
  induction es generalizing d with
  | nil => simpa using h
  | cons kv rest ih => exact ih _ (keysNodup_pyUpd d kv.1 kv.2 h)

/-- A dict write preserves the key-of-value invariant, provided the
written pair satisfies it. -/
theorem inv_pyUpd (d : List ((String × String) × Param))
    (k : String × String) (v : Param)
    (hd : ∀ kv ∈ d, kv.1 = paramKey kv.2) (hv : k = paramKey v) :
    ∀ kv ∈ pyUpd d k v, kv.1 = paramKey kv.2 := by
  intro kv hkv
  by_cases hany : d.any (fun kv => kv.1 == k) = true
  · simp only [pyUpd, hany, if_true] at hkv
    obtain ⟨kv0, hkv0, hmap⟩ := List.mem_map.mp hkv
    by_cases h0 : (kv0.1 == k) = true
    · simp only [h0, if_true] at hmap
      rw [← hmap]
      exact hv
    · simp only [h0, Bool.false_eq_true, if_false] at hmap
      rw [← hmap]
      exact hd kv0 hkv0
  · have hanyf : d.any (fun kv => kv.1 == k) = false :=
      Bool.eq_false_iff.mpr hany
    simp only [pyUpd, hanyf, Bool.false_eq_true, if_false] at hkv
    rcases List.mem_append.mp hkv with hin | hin
    · exact hd kv hin
    · simp only [List.mem_singleton] at hin
      rw [hin]
      exact hv

/-- An entry-fold of dict writes preserves the key-of-value invariant. -/
theorem inv_foldE (es : List ((String × String) × Param))
    (d : List ((String × String) × Param))
    (hes : ∀ kv ∈ es, kv.1 = paramKey kv.2)
    (hd : ∀ kv ∈ d, kv.1 = paramKey kv.2) :
    ∀ kv ∈ es.foldl (fun acc kv => pyUpd acc kv.1 kv.2) d,
      kv.1 = paramKey kv.2 := by
  induction es generalizing d with
  | nil => simpa using hd
  | cons kv rest ih =>
      intro kv' hkv'
      exact ih _ (fun e he => hes e (List.mem_cons_of_mem kv he))
        (inv_pyUpd d kv.1 kv.2 hd (hes kv (List.mem_cons_self kv rest))) kv' hkv'

/-- On a key-distinct dict the last write at a key is also the first
(and only) entry at that key. -/
theorem lastEntry_eq_dictLookup (d : List ((String × String) × Param))
    (k : String × String) (h : (d.map Prod.fst).Nodup) :
    lastEntry d k = dictLookup d k := by
  induction d with
  | nil => simp [lastEntry, dictLookup]
  | cons kv rest ih =>
      rw [List.map_cons] at h
      have h1 := (List.nodup_cons.mp h).1
      have h2 := (List.nodup_cons.mp h).2
      rw [lastEntry_cons, ih h2]
      by_cases hkv : (kv.1 == k) = true
      · have hkk : kv.1 = k := eq_of_beq hkv
        have hnone : dictLookup rest k = none := by
          apply dictLookup_none_of_any_false
          rw [List.any_eq_false]
          intro e he
          have hne : e.1 ≠ k := by
            intro hc
            apply h1
            rw [hkk]
            exact hc ▸ List.mem_map_of_mem Prod.fst he
          simpa using hne
        rw [if_pos hkv, hnone]
        simp [dictLookup, List.find?, hkv]
      · have hcons : dictLookup (kv :: rest) k = dictLookup rest k := by
          simp [dictLookup, List.find?, hkv]
        rw [if_neg hkv, hcons]
        cases dictLookup rest k <;> simp

/-- On a key-distinct dict, a lookup returning a value is the same as
that keyed entry being present. -/
theorem dictLookup_eq_some_iff (d : List ((String × String) × Param))
    (h : (d.map Prod.fst).Nodup) (k : String × String) (v : Param) :
    dictLookup d k = some v ↔ (k, v) ∈ d := by
  induction d with
  | nil => simp [dictLookup]
  | cons kv rest ih =>
      rw [List.map_cons] at h
      have h1 := (List.nodup_cons.mp h).1
      have h2 := (List.nodup_cons.mp h).2
      by_cases hkv : (kv.1 == k) = true
      · have hkk : kv.1 = k := eq_of_beq hkv
        have hlhs : dictLookup (kv :: rest) k = some kv.2 := by
          simp [dictLookup, List.find?, hkv]
        rw [hlhs]
        constructor
        · intro hv
          rw [Option.some_inj] at hv
          refine List.mem_cons.mpr (Or.inl ?_)
          obtain ⟨k1, v1⟩ := kv
          simp only at hkk hv
          rw [hkk, hv]
        · intro hmem
          rcases List.mem_cons.mp hmem with heq | hmem2
          · rw [Option.some_inj, ← heq]
          · exfalso
            apply h1
            rw [hkk]
            exact List.mem_map_of_mem Prod.fst hmem2
      · have hne : kv.1 ≠ k := fun hc => hkv (by simp [hc])
        have hlhs : dictLookup (kv :: rest) k = dictLookup rest k := by
          simp [dictLookup, List.find?, hkv]
        rw [hlhs, ih h2]
        constructor
        · exact fun hmem => List.mem_cons_of_mem kv hmem
        · intro hmem
          rcases List.mem_cons.mp hmem with heq | hmem2
          · exact absurd (by rw [← heq]) hne
          · exact hmem2

/-- Key distinctness of a `dict_helper` dict. -/
theorem keysNodup_dict_helper (ps : List Param) :
    ((dict_helper ps).map Prod.fst).Nodup := by
  rw [dict_helper_eq_foldE]
  exact keysNodup_foldE _ [] (by simp)

/-- `dict_helper` entries satisfy the key-of-value invariant. -/
theorem inv_dict_helper (ps : List Param) :
    ∀ kv ∈ dict_helper ps, kv.1 = paramKey kv.2 := by
  rw [dict_helper_eq_foldE]
  apply inv_foldE
  · intro kv hkv
    obtain ⟨p, _, hp⟩ := List.mem_map.mp hkv
    rw [← hp]
  · simp

/-- Lookup in a `dict_helper` dict is the last occurrence in the raw
parameter list. -/
theorem dictLookup_dict_helper (ps : List Param) (k : String × String) :
    dictLookup (dict_helper ps) k = lastAt ps k := by
  rw [dict_helper_eq_foldE, dictLookup_foldE, lastAt_eq_lastEntry]
  cases lastEntry (ps.map (fun p => (paramKey p, p))) k <;> simp [dictLookup]

/-- The last write in a `dict_helper` dict is the last occurrence in the
raw parameter list. -/
theorem lastEntry_dict_helper (ps : List Param) (k : String × String) :
    lastEntry (dict_helper ps) k = lastAt ps k := by
  rw [lastEntry_eq_dictLookup _ _ (keysNodup_dict_helper ps),
    dictLookup_dict_helper]

/-- Membership in an insertion. -/
theorem mem_insertByName (p q : Param) (l : List Param) :
    q ∈ insertByName p l ↔ q = p ∨ q ∈ l := by
  induction l with
  | nil => simp [insertByName]
  | cons r rs ih =>
      by_cases hle : p.name ≤ r.name
      · simp [insertByName, hle]
      · simp only [insertByName, hle, if_false, List.mem_cons, ih]
        tauto

/-- Sorting does not change the parameter multiset's membership. -/
theorem mem_sortByName (q : Param) (l : List Param) :
    q ∈ sortByName l ↔ q ∈ l := by
  induction l with
  | nil => simp [sortByName]
  | cons p rest ih =>
      have hcons : sortByName (p :: rest) = insertByName p (sortByName rest) := rfl
      rw [hcons, mem_insertByName]
      simp [ih]

/-- Insertion into a name-sorted list keeps it sorted. -/
theorem pairwise_insertByName (p : Param) (l : List Param)
    (h : l.Pairwise (fun a b => a.name ≤ b.name)) :
    (insertByName p l).Pairwise (fun a b => a.name ≤ b.name) := by
  induction l with
  | nil => simp [insertByName]
  | cons r rs ih =>
      rcases List.pairwise_cons.mp h with ⟨hr, hrs⟩
      by_cases hle : p.name ≤ r.name
      · simp only [insertByName, hle, if_true]
        refine List.pairwise_cons.mpr ⟨?_, h⟩
        intro x hx
        rcases List.mem_cons.mp hx with he | hm
        · rw [he]
          exact hle
        · exact le_trans hle (hr x hm)
      · simp only [insertByName, hle, if_false]
        refine List.pairwise_cons.mpr ⟨?_, ih hrs⟩
        intro x hx
        rcases (mem_insertByName p x rs).mp hx with he | hm
        · rw [he]
          exact le_of_not_le hle
        · exact hr x hm

/-- The output of the insertion sort by name is sorted by name. -/
theorem sorted_sortByName (l : List Param) :
    (sortByName l).Pairwise (fun a b => a.name ≤ b.name) := by
  induction l with
  | nil => simp [sortByName]
  | cons p rest ih => exact pairwise_insertByName p _ ih

/-- Values of an invariant-keyed dict: a parameter is a value iff its
keyed entry is present. -/
theorem mem_values_iff (d : List ((String × String) × Param))
    (hinv : ∀ kv ∈ d, kv.1 = paramKey kv.2) (p : Param) :
    p ∈ d.map Prod.snd ↔ (paramKey p, p) ∈ d := by
  constructor
  · intro hmem
    obtain ⟨kv, hkv, hsnd⟩ := List.mem_map.mp hmem
    have hk := hinv kv hkv
    have hpair : (paramKey p, p) = kv := by
      obtain ⟨k1, v1⟩ := kv
      simp only at hsnd hk
      subst hsnd
      rw [hk]
    rw [hpair]
    exact hkv
  · intro hmem
    have := List.mem_map_of_mem Prod.snd hmem
    simpa using this

/-- Claim C4 counterexample.  The claim says filter parameters take
precedence over pagination parameters on a `(name, in)` collision.  On
a filterable GET list route whose filter backend and paginator both
declare the query parameter `page`, the merged result holds the
pagination payload: the merge `{**path, **filter, **pagination}` lets
the later source win. -/
theorem parameters_precedence_counterexample :
    (get_parameters ctxParamClash).map (fun p => (p.name, p.description))
      = [("page", "from-pagination")]
    ∧ "from-pagination" ≠ "from-filter" :=
  ⟨rfl, by decide⟩

/-- Claim C4 (amended): the operation's parameters are the union, keyed
by `(name, in)`, of explicit overrides, path-template variables, filter
parameters (only when the route is filterable) and pagination
parameters (only on list operations with a paginator), with precedence
on key collision: explicit overrides over **pagination over filter over
path variables** (the reverse of the claimed order among the three
non-override sources; within one source the last declaration wins), and
the result is sorted ascending by parameter name. -/
theorem get_parameters_amended (ctx : Ctx) :
    (∀ p : Param,
      (p ∈ get_parameters ctx ↔
        oElse (lastAt ctx.overrideParams (paramKey p))
          (oElse (lastAt (get_pagination_parameters ctx) (paramKey p))
            (oElse (lastAt (get_filter_parameters ctx) (paramKey p))
              (lastAt (resolve_path_parameters ctx (path_variables_used ctx))
                (paramKey p))))
          = some p))
    ∧ (get_parameters ctx).Pairwise (fun a b => a.name ≤ b.name) := by
  have hinvD3 : ∀ kv ∈ pyMergeD
      (pyMergeD (dict_helper (resolve_path_parameters ctx (path_variables_used ctx)))
        (dict_helper (get_filter_parameters ctx)))
      (dict_helper (get_pagination_parameters ctx)), kv.1 = paramKey kv.2 := by
    apply inv_foldE
    · exact inv_dict_helper _
    · apply inv_foldE
      · exact inv_dict_helper _
      · exact inv_dict_helper _
  have hkeysD3 : ((pyMergeD
      (pyMergeD (dict_helper (resolve_path_parameters ctx (path_variables_used ctx)))
        (dict_helper (get_filter_parameters ctx)))
      (dict_helper (get_pagination_parameters ctx))).map Prod.fst).Nodup := by
    apply keysNodup_foldE
    apply keysNodup_foldE
    exact keysNodup_dict_helper _
  have hinvF : ∀ kv ∈ (dict_helper ctx.overrideParams).foldl
      (fun acc kv => pyUpd acc kv.1 kv.2)
      (pyMergeD
        (pyMergeD (dict_helper (resolve_path_parameters ctx (path_variables_used ctx)))
          (dict_helper (get_filter_parameters ctx)))
        (dict_helper (get_pagination_parameters ctx))),
      kv.1 = paramKey kv.2 :=
    inv_foldE _ _ (inv_dict_helper _) hinvD3
  have hkeysF : (((dict_helper ctx.overrideParams).foldl
      (fun acc kv => pyUpd acc kv.1 kv.2)
      (pyMergeD
        (pyMergeD (dict_helper (resolve_path_parameters ctx (path_variables_used ctx)))
          (dict_helper (get_filter_parameters ctx)))
        (dict_helper (get_pagination_parameters ctx)))).map Prod.fst).Nodup :=
    keysNodup_foldE _ _ hkeysD3
  constructor
  · intro p
    have hget : get_parameters ctx
        = sortByName (((dict_helper ctx.overrideParams).foldl
            (fun acc kv => pyUpd acc kv.1 kv.2)
            (pyMergeD
              (pyMergeD
                (dict_helper (resolve_path_parameters ctx (path_variables_used ctx)))
                (dict_helper (get_filter_parameters ctx)))
              (dict_helper (get_pagination_parameters ctx)))).map Prod.snd) := rfl
    have hchain : dictLookup ((dict_helper ctx.overrideParams).foldl
        (fun acc kv => pyUpd acc kv.1 kv.2)
        (pyMergeD
          (pyMergeD (dict_helper (resolve_path_parameters ctx (path_variables_used ctx)))
            (dict_helper (get_filter_parameters ctx)))
          (dict_helper (get_pagination_parameters ctx)))) (paramKey p)
        = oElse (lastAt ctx.overrideParams (paramKey p))
            (oElse (lastAt (get_pagination_parameters ctx) (paramKey p))
              (oElse (lastAt (get_filter_parameters ctx) (paramKey p))
                (lastAt (resolve_path_parameters ctx (path_variables_used ctx))
                  (paramKey p)))) := by
      rw [dictLookup_foldE, lastEntry_dict_helper]
      have hmerge1 : dictLookup (pyMergeD
          (pyMergeD (dict_helper (resolve_path_parameters ctx (path_variables_used ctx)))
            (dict_helper (get_filter_parameters ctx)))
          (dict_helper (get_pagination_parameters ctx))) (paramKey p)
          = oElse (lastAt (get_pagination_parameters ctx) (paramKey p))
              (oElse (lastAt (get_filter_parameters ctx) (paramKey p))
                (lastAt (resolve_path_parameters ctx (path_variables_used ctx))
                  (paramKey p))) := by
        show dictLookup ((dict_helper (get_pagination_parameters ctx)).foldl
            (fun acc kv => pyUpd acc kv.1 kv.2) _) (paramKey p) = _
        rw [dictLookup_foldE, lastEntry_dict_helper]
        have hmerge2 : dictLookup (pyMergeD
            (dict_helper (resolve_path_parameters ctx (path_variables_used ctx)))
            (dict_helper (get_filter_parameters ctx))) (paramKey p)
            = oElse (lastAt (get_filter_parameters ctx) (paramKey p))
                (lastAt (resolve_path_parameters ctx (path_variables_used ctx))
                  (paramKey p)) := by
          show dictLookup ((dict_helper (get_filter_parameters ctx)).foldl
              (fun acc kv => pyUpd acc kv.1 kv.2) _) (paramKey p) = _
          rw [dictLookup_foldE, lastEntry_dict_helper, dictLookup_dict_helper]
        rw [hmerge2]
      rw [hmerge1]
    rw [hget, mem_sortByName, mem_values_iff _ hinvF p,
      ← dictLookup_eq_some_iff _ hkeysF _ p, hchain]
  · exact sorted_sortByName _

end DrfSpectacular
